import Mathlib

/-!
Verification of the Gloo-based process-group backend (ProcessGroupGloo).

The development shallowly embeds the parts of the source relevant to the
frozen claims: the sparse-coo tensor model and the sparse allreduce engine
of AsyncSparseAllreduceWork, the SparseTensorMetadata record, the dense
allreduce work item, the point-to-point entry points (send / recv /
recvAnysource) with their tag validation, the dispatch-layer validation and
tag counter, the worker pool drain protocol, and the RecvWork handle.

Machine integers are modelled as Nat / Int with explicit reduction modulo
2^32 where the source uses uint32_t.  Fallible code returns Except.
-/

namespace c10d

/-- Error kinds, named after the C++ exception classes the source throws:
`invalidArgument` for std::invalid_argument, `runtimeError` for
std::runtime_error, `assertFailed` for AT_ASSERT, `checkFailed` for AT_CHECK. -/
inductive GErr where
  | invalidArgument (msg : String)
  | runtimeError (msg : String)
  | assertFailed (msg : String)
  | checkFailed (msg : String)
deriving Repr, DecidableEq

/-- True exactly for the std::invalid_argument error kind. -/
def GErr.isInvalidArgument : GErr → Bool
  | .invalidArgument _ => true
  | _ => false

/-- True exactly for the std::runtime_error error kind. -/
def GErr.isRuntimeError : GErr → Bool
  | .runtimeError _ => true
  | _ => false

/-! ## Sparse COO tensor model

A sparse-coo tensor is a list of sparse dimension sizes, a list of dense
dimension sizes, and a list of entries.  Each entry is an index vector
(one coordinate per sparse dimension) together with the flattened dense
value block stored at that index.  Scalars are modelled as Int. -/

structure SparseTensor where
  sparseShape : List Nat
  denseShape : List Nat
  entries : List (List Int × List Int)
deriving Repr, DecidableEq

/-- Product of a list of dimension sizes (number of elements of a dense block). -/
def listProd (l : List Nat) : Nat := l.foldr (· * ·) 1

def SparseTensor.zero : SparseTensor := ⟨[], [], []⟩

/-- tensor.sparse_dim() -/
def SparseTensor.sparse_dim (t : SparseTensor) : Nat := t.sparseShape.length

/-- tensor.dense_dim() -/
def SparseTensor.dense_dim (t : SparseTensor) : Nat := t.denseShape.length

/-- tensor.sizes(): the sparse sizes followed by the dense sizes. -/
def SparseTensor.sizes (t : SparseTensor) : List Nat := t.sparseShape ++ t.denseShape

/-- tensor.size(i) -/
def SparseTensor.size (t : SparseTensor) (i : Nat) : Nat := t.sizes.getD i 0

/-- tensor._nnz() -/
def SparseTensor.nnz (t : SparseTensor) : Nat := t.entries.length

/-- Element-wise addition of two flattened dense blocks. -/
def vecAdd (a b : List Int) : List Int := List.zipWith (· + ·) a b

/-- Sum of a list of dense blocks of `D` elements each. -/
def sumVecs (D : Nat) (vs : List (List Int)) : List Int :=
  vs.foldr vecAdd (List.replicate D 0)

/-- at::add on sparse tensors: concatenate the entry lists (shape of the left
operand is kept; the tensor library requires both shapes to agree). -/
def SparseTensor.add (a b : SparseTensor) : SparseTensor :=
  ⟨a.sparseShape, a.denseShape, a.entries ++ b.entries⟩

/-- Row-major flattening of a sparse index vector, as used by the tensor
library to order and compare sparse indices. -/
def flattenIdx : List Nat → List Int → Int
  | _ :: ss, i :: is => i * (listProd ss : Int) + flattenIdx ss is
  | _, _ => 0

/-- Bounds check: the index vector has one coordinate per sparse dimension and
each coordinate `i` satisfies `0 ≤ i < size`. -/
def inBounds : List Nat → List Int → Bool
  | [], [] => true
  | s :: ss, i :: is => decide (0 ≤ i) && decide (i < (s : Int)) && inBounds ss is
  | _, _ => false

/-- Entry well-formedness relative to a sparse shape and dense block size:
every entry has an in-bounds index vector and a dense block of `D` scalars. -/
def WFE (S : List Nat) (D : Nat) (l : List (List Int × List Int)) : Prop :=
  ∀ e ∈ l, inBounds S e.1 = true ∧ e.2.length = D

/-- Well-formedness of a sparse tensor. -/
def SparseTensor.WF (t : SparseTensor) : Prop :=
  WFE t.sparseShape (listProd t.denseShape) t.entries

instance decWFE (S : List Nat) (D : Nat) (l : List (List Int × List Int)) :
    Decidable (WFE S D l) :=
  inferInstanceAs (Decidable (∀ e ∈ l, inBounds S e.1 = true ∧ e.2.length = D))

instance decWF (t : SparseTensor) : Decidable t.WF :=
  inferInstanceAs (Decidable (WFE t.sparseShape (listProd t.denseShape) t.entries))

/-- Insert one entry into an entry list kept strictly sorted by flattened
index, summing the dense blocks when the flattened indices collide.  This is
the canonicalization step performed by coalesce(). -/
def insertCoalesced (shape : List Nat) (e : List Int × List Int) :
    List (List Int × List Int) → List (List Int × List Int)
  | [] => [e]
  | f :: rest =>
    if flattenIdx shape e.1 < flattenIdx shape f.1 then e :: f :: rest
    else if flattenIdx shape e.1 = flattenIdx shape f.1 then
      (f.1, vecAdd f.2 e.2) :: rest
    else f :: insertCoalesced shape e rest

/-- Canonical entry list: unique, sorted flattened indices with summed values. -/
def coalesceEntries (shape : List Nat) (l : List (List Int × List Int)) :
    List (List Int × List Int) :=
  l.foldr (insertCoalesced shape) []

/-- tensor.coalesce() -/
def SparseTensor.coalesce (t : SparseTensor) : SparseTensor :=
  ⟨t.sparseShape, t.denseShape, coalesceEntries t.sparseShape t.entries⟩

/-- Flattened index of every entry, in entry order. -/
def entryKeys (shape : List Nat) (l : List (List Int × List Int)) : List Int :=
  l.map fun e => flattenIdx shape e.1

/-- A tensor is coalesced when its flattened indices are strictly increasing
(unique, sorted indices). -/
def IsCoalesced (t : SparseTensor) : Prop :=
  List.Chain' (· < ·) (entryKeys t.sparseShape t.entries)

/-- Value of the tensor at sparse coordinate `idx`: the sum of the dense
blocks of all entries carrying that index vector. -/
def SparseTensor.evalCoord (t : SparseTensor) (idx : List Int) : List Int :=
  sumVecs (listProd t.denseShape) ((t.entries.filter fun e => e.1 == idx).map Prod.snd)

/-- Value of an entry list at flattened index `k`. -/
def evalKey (shape : List Nat) (D : Nat) (l : List (List Int × List Int)) (k : Int) :
    List Int :=
  sumVecs D ((l.filter fun e => flattenIdx shape e.1 == k).map Prod.snd)

/-! ### Arithmetic facts about dense blocks and flattened indices -/

theorem vecAdd_comm (a b : List Int) : vecAdd a b = vecAdd b a := by
  unfold vecAdd
  induction a generalizing b with
  | nil => cases b <;> simp
  | cons x xs ih => cases b <;> simp [Int.add_comm, ih]

theorem vecAdd_assoc (a b c : List Int) :
    vecAdd (vecAdd a b) c = vecAdd a (vecAdd b c) := by
  induction a generalizing b c with
  | nil => simp [vecAdd]
  | cons x xs ih =>
    cases b with
    | nil => simp [vecAdd]
    | cons y ys =>
      cases c with
      | nil => simp [vecAdd]
      | cons z zs =>
        simp only [vecAdd, List.zipWith_cons_cons, Int.add_assoc, List.cons.injEq,
          true_and]
        exact ih ys zs

theorem vecAdd_length (a b : List Int) :
    (vecAdd a b).length = min a.length b.length := by
  simp [vecAdd]

theorem vecAdd_replicate_zero (v : List Int) :
    vecAdd (List.replicate v.length 0) v = v := by
  induction v with
  | nil => rfl
  | cons x xs ih => simpa [vecAdd, List.replicate] using ih

theorem sumVecs_nil (D : Nat) : sumVecs D [] = List.replicate D 0 := rfl

theorem sumVecs_cons (D : Nat) (v : List Int) (vs : List (List Int)) :
    sumVecs D (v :: vs) = vecAdd v (sumVecs D vs) := rfl

theorem sumVecs_length (D : Nat) (vs : List (List Int)) (h : ∀ v ∈ vs, v.length = D) :
    (sumVecs D vs).length = D := by
  induction vs with
  | nil => simp [sumVecs]
  | cons v vs ih =>
    rw [sumVecs_cons, vecAdd_length, h v (by simp), ih fun w hw => h w (by simp [hw])]
    simp

theorem vecAdd_replicate_zero' (D : Nat) (v : List Int) (h : v.length = D) :
    vecAdd (List.replicate D 0) v = v := by
  subst h
  exact vecAdd_replicate_zero v

theorem sumVecs_append (D : Nat) (l1 l2 : List (List Int))
    (h2 : ∀ v ∈ l2, v.length = D) :
    sumVecs D (l1 ++ l2) = vecAdd (sumVecs D l1) (sumVecs D l2) := by
  induction l1 with
  | nil =>
    rw [List.nil_append, sumVecs_nil,
      vecAdd_replicate_zero' D _ (sumVecs_length D l2 h2)]
  | cons v vs ih => simp [sumVecs_cons, ih, vecAdd_assoc]

theorem inBounds_nil_iff (is : List Int) : inBounds [] is = true ↔ is = [] := by
  cases is <;> simp [inBounds]

theorem inBounds_cons_iff (s : Nat) (ss : List Nat) (i : Int) (is : List Int) :
    inBounds (s :: ss) (i :: is) = true ↔
      (0 ≤ i ∧ i < (s : Int)) ∧ inBounds ss is = true := by
  simp [inBounds, and_assoc]

theorem flattenIdx_nonneg (ss : List Nat) (is : List Int)
    (h : inBounds ss is = true) : 0 ≤ flattenIdx ss is := by
  induction ss generalizing is with
  | nil =>
    rw [inBounds_nil_iff] at h
    subst h
    simp [flattenIdx]
  | cons s ss ih =>
    cases is with
    | nil => simp [inBounds] at h
    | cons i is =>
      rw [inBounds_cons_iff] at h
      obtain ⟨⟨h0, _⟩, hrest⟩ := h
      have := ih is hrest
      unfold flattenIdx
      have hP : (0 : Int) ≤ (listProd ss : Int) := Int.natCast_nonneg _
      nlinarith

theorem flattenIdx_lt (ss : List Nat) (is : List Int)
    (h : inBounds ss is = true) : flattenIdx ss is < (listProd ss : Int) := by
  induction ss generalizing is with
  | nil =>
    rw [inBounds_nil_iff] at h
    subst h
    simp [flattenIdx, listProd]
  | cons s ss ih =>
    cases is with
    | nil => simp [inBounds] at h
    | cons i is =>
      rw [inBounds_cons_iff] at h
      obtain ⟨⟨h0, hs⟩, hrest⟩ := h
      have hlt := ih is hrest
      have hnn := flattenIdx_nonneg ss is hrest
      unfold flattenIdx
      have hexp : (listProd (s :: ss) : Int) = (s : Int) * (listProd ss : Int) := by
        simp [listProd]
      rw [hexp]
      nlinarith

theorem flattenIdx_inj (ss : List Nat) (is is' : List Int)
    (h : inBounds ss is = true) (h' : inBounds ss is' = true)
    (heq : flattenIdx ss is = flattenIdx ss is') : is = is' := by
  induction ss generalizing is is' with
  | nil =>
    rw [inBounds_nil_iff] at h h'
    rw [h, h']
  | cons s ss ih =>
    cases is with
    | nil => simp [inBounds] at h
    | cons i is =>
      cases is' with
      | nil => simp [inBounds] at h'
      | cons i' is' =>
        rw [inBounds_cons_iff] at h h'
        obtain ⟨⟨h0, hs⟩, hrest⟩ := h
        obtain ⟨⟨h0', hs'⟩, hrest'⟩ := h'
        have hnn := flattenIdx_nonneg ss is hrest
        have hlt := flattenIdx_lt ss is hrest
        have hnn' := flattenIdx_nonneg ss is' hrest'
        have hlt' := flattenIdx_lt ss is' hrest'
        have hP : (0 : Int) < (listProd ss : Int) := lt_of_le_of_lt hnn hlt
        unfold flattenIdx at heq
        have hdiv : (i * (listProd ss : Int) + flattenIdx ss is) / (listProd ss : Int) = i := by
          rw [add_comm, Int.add_mul_ediv_right _ _ (ne_of_gt hP),
            Int.ediv_eq_zero_of_lt hnn hlt]
          simp
        have hdiv' : (i' * (listProd ss : Int) + flattenIdx ss is') / (listProd ss : Int) = i' := by
          rw [add_comm, Int.add_mul_ediv_right _ _ (ne_of_gt hP),
            Int.ediv_eq_zero_of_lt hnn' hlt']
          simp
        have hi : i = i' := by rw [← hdiv, ← hdiv', heq]
        subst hi
        have hr : flattenIdx ss is = flattenIdx ss is' := by
          have := heq
          omega
        rw [ih is is' hrest hrest' hr]

/-! ## Sparse metadata record (AsyncSparseAllreduceWork::SparseTensorMetadata)

A fixed 9-slot int64 row: slots 0-3 the sparse sizes, slots 4-7 the dense
sizes (unused slots keep the zero the buffer was initialized with), slot 8
the number of non-zeros. -/

namespace SparseTensorMetadata

def dim : Nat := 9

/-- populate_from_sparse_tensor, acting on a zero-initialized 9-slot row (the
metadata buffer is created with at::zeros in allgather_metadata): slot `i < 4`
receives `tensor.size(i)` when `i < sparse_dim`, slot `4+i` receives
`tensor.size(sparse_dim + i)` when `i < dense_dim`, slot 8 receives nnz. -/
def populate_from_sparse_tensor (t : SparseTensor) : List Int :=
  ((List.range 4).map fun i => if i < t.sparse_dim then (t.size i : Int) else 0) ++
    ((List.range 4).map fun i =>
      if i < t.dense_dim then (t.size (t.sparse_dim + i) : Int) else 0) ++
    [(t.nnz : Int)]

/-- The AT_ASSERT preconditions of populate_from_sparse_tensor. -/
def populateOk (t : SparseTensor) : Bool :=
  decide (t.sparse_dim ≤ 4) && decide (t.dense_dim ≤ 4)

/-- sizes(): read back the sparse sizes from slots 0-3 and the dense sizes
from slots 4-7, each read stopping at the first slot that is ≤ 0. -/
def sizes (data : List Int) : List Int :=
  ((data.take 4).takeWhile fun v => decide (0 < v)) ++
    (((data.drop 4).take 4).takeWhile fun v => decide (0 < v))

/-- nnz(): slot 8. -/
def nnz (data : List Int) : Int := data.getD 8 0

end SparseTensorMetadata

/-! ## Sparse allreduce engine (AsyncSparseAllreduceWork)

The engine is modelled from the SPMD world view: `world` holds every rank's
local input list, and the transport allgathers are modelled as each rank
receiving the row every rank wrote.  `padI` / `padV` stand for the
uninitialized contents of the max-nnz padding of the at::empty buffers. -/

/-- The local pre-reduction of AsyncSparseAllreduceWork::allreduce:
`input = tensors[0]; for i in 1.. : input += tensors[i]`. -/
def localReduce : List SparseTensor → SparseTensor
  | [] => SparseTensor.zero
  | t :: ts => ts.foldl SparseTensor.add t

/-- max_nnz: start from the first element and fold max over the rest. -/
def listMaxI (l : List Int) : Int := l.foldl max (l.getD 0 0)

/-- allgather_metadata: every rank populates its 9-slot row of the
zero-initialized buffer, and the allgather makes all rows visible. -/
def allgather_metadata (locals : List SparseTensor) : List (List Int) :=
  locals.map SparseTensorMetadata.populate_from_sparse_tensor

/-- allgather_indices: rank `i` writes its indices into its row of a
`[size, sparse_dim, max_nnz]` at::empty buffer (`padI` marks the
uninitialized pad columns); after the allgather every row is narrowed back
to that rank's nnz as recorded in the gathered metadata. -/
def allgather_indices (size : Nat) (metadata : List (List Int))
    (locals : List SparseTensor) (padI : Int) : List (List (List Int)) :=
  let maxNnz := listMaxI (metadata.map SparseTensorMetadata.nnz)
  (List.range size).map fun i =>
    let t := locals.getD i SparseTensor.zero
    ((t.entries.map Prod.fst) ++
        List.replicate (maxNnz.toNat - t.nnz) (List.replicate t.sparse_dim padI)).take
      (SparseTensorMetadata.nnz (metadata.getD i [])).toNat

/-- allgather_values: the same pattern over a `[size, max_nnz, dense sizes]`
at::empty buffer of dense value blocks (`padV` marks the uninitialized pad). -/
def allgather_values (size : Nat) (metadata : List (List Int))
    (locals : List SparseTensor) (padV : Int) : List (List (List Int)) :=
  let maxNnz := listMaxI (metadata.map SparseTensorMetadata.nnz)
  (List.range size).map fun i =>
    let t := locals.getD i SparseTensor.zero
    ((t.entries.map Prod.snd) ++
        List.replicate (maxNnz.toNat - t.nnz) (List.replicate (listProd t.denseShape) padV)).take
      (SparseTensorMetadata.nnz (metadata.getD i [])).toNat

/-- at::sparse_coo_tensor(indices, values, sizes): an uncoalesced sparse
tensor pairing the index columns with the value blocks. -/
def sparse_coo_tensor (idxs vals : List (List Int)) (sShape dShape : List Nat) :
    SparseTensor :=
  ⟨sShape, dShape, idxs.zip vals⟩

/-- The global reduction loop: `output = sparse_coo_tensor(indices[0],
values[0], input.sizes()); for i in 1.. : output += sparse_coo_tensor(...)`. -/
def buildSparseOutput (input : SparseTensor) :
    List (List (List Int) × List (List Int)) → SparseTensor
  | [] => SparseTensor.zero
  | p :: ps =>
    ps.foldl
      (fun acc q =>
        acc.add (sparse_coo_tensor q.1 q.2 input.sparseShape input.denseShape))
      (sparse_coo_tensor p.1 p.2 input.sparseShape input.denseShape)

/-- AsyncSparseAllreduceWork::allreduce as seen from rank `rank`: local
reduction and coalesce, metadata allgather with the AT_ASSERT dimension
limits, the AT_CHECK cross-rank dimension comparison, the indices and values
allgathers with max-nnz padding, the global reduction, and a final coalesce. -/
def allreduceSparse (size rank : Nat) (world : List (List SparseTensor))
    (padI padV : Int) : Except GErr SparseTensor :=
  let locals := world.map fun ts => (localReduce ts).coalesce
  let input := locals.getD rank SparseTensor.zero
  if (locals.all SparseTensorMetadata.populateOk) = false then
    .error (.assertFailed "sparse_dim and dense_dim must be at most 4")
  else
    let metadata := allgather_metadata locals
    let expected := SparseTensorMetadata.sizes (metadata.getD rank [])
    if ((List.range size).all fun i =>
          i == rank || SparseTensorMetadata.sizes (metadata.getD i []) == expected) = false then
      .error (.checkFailed "Sparse dimensions do not match")
    else
      let indices := allgather_indices size metadata locals padI
      let values := allgather_values size metadata locals padV
      .ok (buildSparseOutput input (indices.zip values)).coalesce

/-- AsyncSparseAllreduceWork::run as seen from rank `rank`: perform the
allreduce, then push one clone of the result per input into the `outputs`
vector (the captured `inputs` list itself is not written to).  The result is
the pair (inputs after run, outputs after run). -/
def sparseRun (size rank : Nat) (world : List (List SparseTensor))
    (padI padV : Int) : Except GErr (List SparseTensor × List SparseTensor) :=
  let inputs := world.getD rank []
  match allreduceSparse size rank world padI padV with
  | .error e => .error e
  | .ok output => .ok (inputs, List.replicate inputs.length output)

/-! ## Dense allreduce work item (AsyncAllreduceWork, CPU path) -/

/-- The reduce ops of §4.G. -/
inductive ReduceOp where
  | sum
  | product
  | rmin
  | rmax
  | unused
deriving Repr, DecidableEq

/-- toFunction for int64 scalars: the typed binary reducer for each op, or
none for the UNUSED op (the source throws "Unhandled ReduceOp"). -/
def toFunctionInt : ReduceOp → Option (Int → Int → Int)
  | .sum => some (· + ·)
  | .product => some (· * ·)
  | .rmin => some min
  | .rmax => some max
  | .unused => none

/-- Element-wise reduction of a non-empty list of equally-shaped flat
tensors, as the transport performs it over all ranks' contributions. -/
def reduceVecs (f : Int → Int → Int) : List (List Int) → List Int
  | [] => []
  | v :: vs => vs.foldl (List.zipWith f) v

/-- gloo::allreduce over every tensor of every rank's input list: only the
first entry of the caller's list receives the result (gloo issue 152); the
remaining entries keep their previous contents. -/
def transportAllreduce (f : Int → Int → Int) (world : List (List (List Int)))
    (rank : Nat) : List (List Int) :=
  match world.getD rank [] with
  | [] => []
  | _ :: rest => reduceVecs f world.flatten :: rest

/-- The copy loop after the transport call:
`for i in 1.. : inputs[i].copy_(inputs[0])`. -/
def copyFirstIntoRest : List (List Int) → List (List Int)
  | [] => []
  | x :: rest => x :: rest.map fun _ => x

/-- AsyncAllreduceWork::run on the CPU path, from rank `rank` of the world:
transport allreduce on the list, then copy inputs[0] into the other inputs. -/
def allreduceRunCPU (op : ReduceOp) (world : List (List (List Int)))
    (rank : Nat) : Except GErr (List (List Int)) :=
  match toFunctionInt op with
  | none => .error (.runtimeError "Unhandled ReduceOp")
  | some f => .ok (copyFirstIntoRest (transportAllreduce f world rank))

/-! ## Point-to-point engine (send / recv / recvAnysource) -/

/-- Device type of a captured tensor (USE_CUDA build; `other` stands for any
further device type, which the dispatch layer rejects). -/
inductive DeviceType where
  | cpu
  | cuda
  | other
deriving Repr, DecidableEq

/-- Tensor layout: dense strided, sparse coo, or mkldnn. -/
inductive Layout where
  | strided
  | sparse
  | mkldnn
deriving Repr, DecidableEq

/-- Scalar dtype (only equality matters for validation). -/
inductive DType where
  | f32
  | f64
  | f16
  | i8
  | u8
  | i32
  | i64
deriving Repr, DecidableEq

/-- The validation-relevant description of an at::Tensor argument. -/
structure TensorDesc where
  device : DeviceType
  layout : Layout
  dtype : DType
  sizes : List Nat
  contiguous : Bool
deriving Repr, DecidableEq

def defaultTensor : TensorDesc := ⟨.cpu, .strided, .f32, [], true⟩

/-- Events observable at the transport boundary of the point-to-point path. -/
inductive TransportEvent where
  | createUnboundBuffer
  | bufSend (dst : Int) (tag : Nat)
  | bufRecv (src : Int) (tag : Nat)
  | bufRecvList (srcs : List Int) (tag : Nat)
deriving Repr, DecidableEq

/-- checkSingleTensor: a single, contiguous, dense tensor. -/
def checkSingleTensor (tensors : List TensorDesc) : Except GErr TensorDesc :=
  if tensors.length ≠ 1 then
    .error (.runtimeError "ProcessGroupGloo::send takes a single tensor")
  else
    let tensor := tensors.getD 0 defaultTensor
    if tensor.contiguous = false then
      .error (.runtimeError "input tensor has to be contiguous")
    else if tensor.layout = Layout.sparse then
      .error (.runtimeError "input tensor has to be dense")
    else .ok tensor

/-- checkTag: reject negative tags, then cast to uint32. -/
def checkTag (tag : Int) : Except GErr Nat :=
  if tag < 0 then .error (.runtimeError "Tag must be >= 0") else .ok tag.toNat

/-- recvAnysource's source-rank list: `srcRanks.resize(size_)`
value-initializes `size` zero entries, after which the loop appends ranks
0..size-1. -/
def recvAnysourceSrcRanks (size : Nat) : List Int :=
  List.replicate size 0 ++ (List.range size).map fun i => (i : Int)

/-- ProcessGroupGloo::send: validate, create the unbound buffer, issue the
send.  The first component records the transport interactions performed. -/
def sendP (tensors : List TensorDesc) (dstRank tag : Int) :
    List TransportEvent × Except GErr Unit :=
  match checkSingleTensor tensors with
  | .error e => ([], .error e)
  | .ok _ =>
    match checkTag tag with
    | .error e => ([], .error e)
    | .ok utag => ([.createUnboundBuffer, .bufSend dstRank utag], .ok ())

/-- ProcessGroupGloo::recv. -/
def recvP (tensors : List TensorDesc) (srcRank tag : Int) :
    List TransportEvent × Except GErr Unit :=
  match checkSingleTensor tensors with
  | .error e => ([], .error e)
  | .ok _ =>
    match checkTag tag with
    | .error e => ([], .error e)
    | .ok utag => ([.createUnboundBuffer, .bufRecv srcRank utag], .ok ())

/-- ProcessGroupGloo::recvAnysource. -/
def recvAnysourceP (size : Nat) (tensors : List TensorDesc) (tag : Int) :
    List TransportEvent × Except GErr Unit :=
  match checkSingleTensor tensors with
  | .error e => ([], .error e)
  | .ok _ =>
    match checkTag tag with
    | .error e => ([], .error e)
    | .ok utag =>
      ([.createUnboundBuffer, .bufRecvList (recvAnysourceSrcRanks size) utag], .ok ())

/-- Whether a point-to-point call failed with std::invalid_argument. -/
def opFailsInvalidArgument (r : List TransportEvent × Except GErr Unit) : Bool :=
  match r.2 with
  | .error e => e.isInvalidArgument
  | .ok _ => false

/-- Whether a point-to-point call failed with std::runtime_error. -/
def opFailsRuntimeError (r : List TransportEvent × Except GErr Unit) : Bool :=
  match r.2 with
  | .error e => e.isRuntimeError
  | .ok _ => false

/-! ## Tag allocator -/

def UINT32MOD : Nat := 4294967296

/-- nextTag(): post-increment of the group's 32-bit collective counter;
returns the old value and the new counter state. -/
def nextTag (c : Nat) : Nat × Nat := (c % UINT32MOD, (c + 1) % UINT32MOD)

/-- Counter value after `n` dispatches starting from a fresh group. -/
def counterAfterCalls : Nat → Nat
  | 0 => 0
  | n + 1 => (nextTag (counterAfterCalls n)).2

/-- Tag assigned to the `n`-th dispatched work item (0-based). -/
def tagOfNth (n : Nat) : Nat := (nextTag (counterAfterCalls n)).1

/-! ## Dispatch layer validation (§4.F, §4.L)

Each model returns the allocated tag (or the validation error) together with
the collective counter after the call.  The `assert*` validators' bodies
live outside this source file; they are modelled from the spec. -/

/-- Modelled from the spec: assertRootRank — `0 ≤ rootRank < size`. -/
def assertRootRank (size : Nat) (root : Int) : Bool :=
  decide (0 ≤ root) && decide (root < (size : Int))

/-- Modelled from the spec: assertRootTensor — `0 ≤ rootTensor < len(inputs)`. -/
def assertRootTensor (len : Nat) (rt : Int) : Bool :=
  decide (0 ≤ rt) && decide (rt < (len : Int))

/-- Modelled from the spec: assertNonEmpty — the tensor list is non-empty. -/
def assertNonEmpty (l : List TensorDesc) : Bool := !l.isEmpty

/-- Modelled from the spec: assertSingleElement — exactly one tensor. -/
def assertSingleElement (l : List TensorDesc) : Bool := l.length == 1

/-- Modelled from the spec: assertDense — every tensor has strided layout. -/
def assertDense (l : List TensorDesc) : Bool :=
  l.all fun t => t.layout == Layout.strided

/-- Modelled from the spec: assertLayoutMatch — all layouts equal the first. -/
def assertLayoutMatch (l : List TensorDesc) : Bool :=
  match l with
  | [] => true
  | t :: ts => ts.all fun u => u.layout == t.layout

/-- Modelled from the spec: assertTypeAndSizesMatch against a reference
dtype and shape. -/
def typeAndSizesMatchWith (ref : TensorDesc) (l : List TensorDesc) : Bool :=
  l.all fun u => u.dtype == ref.dtype && u.sizes == ref.sizes

/-- Modelled from the spec: assertTypeAndSizesMatch — all tensors share the
first tensor's dtype and shape. -/
def assertTypeAndSizesMatch (l : List TensorDesc) : Bool :=
  match l with
  | [] => true
  | t :: ts => typeAndSizesMatchWith t ts

/-- The `switch (device.type())` guard: CPU and CUDA are accepted. -/
def deviceSupported (d : DeviceType) : Bool :=
  d == DeviceType.cpu || d == DeviceType.cuda

/-- ProcessGroupGloo::broadcast dispatch (validation / tag allocation only;
the returned value is the allocated tag). -/
def broadcastD (size : Nat) (c : Nat) (inputs : List TensorDesc)
    (rootRank rootTensor : Int) : Except GErr Nat × Nat :=
  if assertRootRank size rootRank = false then
    (.error (.invalidArgument "invalid root rank"), c)
  else if assertRootTensor inputs.length rootTensor = false then
    (.error (.invalidArgument "invalid root tensor"), c)
  else if assertDense inputs = false then
    (.error (.invalidArgument "all tensors must be dense"), c)
  else if assertTypeAndSizesMatch inputs = false then
    (.error (.invalidArgument "all tensors must have the same type and size"), c)
  else if deviceSupported (inputs.getD 0 defaultTensor).device = false then
    (.error (.invalidArgument "unsupported device type"), c)
  else
    let tc := nextTag c
    match (inputs.getD 0 defaultTensor).device with
    | .cpu => (.ok tc.1, tc.2)
    | .cuda => (.ok tc.1, tc.2)
    | .other => (.error (.runtimeError "Invalid backend"), tc.2)

/-- ProcessGroupGloo::allreduce dispatch.  Note the layout cases inside the
device branch: a layout that is neither strided nor sparse is rejected only
after nextTag() has advanced the counter. -/
def allreduceD (c : Nat) (inputs : List TensorDesc) (op : ReduceOp) :
    Except GErr Nat × Nat :=
  if assertNonEmpty inputs = false then
    (.error (.invalidArgument "requires non-empty tensor list"), c)
  else if assertLayoutMatch inputs = false then
    (.error (.invalidArgument "all tensors must have the same layout"), c)
  else if assertTypeAndSizesMatch inputs = false then
    (.error (.invalidArgument "all tensors must have the same type and size"), c)
  else if deviceSupported (inputs.getD 0 defaultTensor).device = false then
    (.error (.invalidArgument "unsupported device type"), c)
  else if (inputs.getD 0 defaultTensor).layout = Layout.sparse ∧ op ≠ ReduceOp.sum then
    (.error (.invalidArgument "unsupported reduction operation"), c)
  else
    let tc := nextTag c
    match (inputs.getD 0 defaultTensor).device, (inputs.getD 0 defaultTensor).layout with
    | .cpu, .strided => (.ok tc.1, tc.2)
    | .cpu, .sparse => (.ok tc.1, tc.2)
    | .cpu, _ => (.error (.invalidArgument "unsupported layout"), tc.2)
    | .cuda, .strided => (.ok tc.1, tc.2)
    | .cuda, .sparse => (.ok tc.1, tc.2)
    | .cuda, _ => (.error (.invalidArgument "unsupported layout"), tc.2)
    | .other, _ => (.error (.runtimeError "Invalid backend"), tc.2)

/-- ProcessGroupGloo::allreduce_coalesced dispatch: invalid arguments are
detected before any call to nextTag(). -/
def allreduceCoalescedD (c : Nat) (tensors : List TensorDesc) : Except GErr Nat × Nat :=
  if assertNonEmpty tensors = false then
    (.error (.invalidArgument "requires non-empty tensor list"), c)
  else if assertLayoutMatch tensors = false then
    (.error (.invalidArgument "all tensors must have the same layout"), c)
  else if (tensors.all fun t => t.dtype == (tensors.getD 0 defaultTensor).dtype) = false then
    (.error (.invalidArgument "tensors must all have the same type"), c)
  else if (tensors.all fun t => t.device == (tensors.getD 0 defaultTensor).device) = false then
    (.error (.invalidArgument "tensors must all be on the same device"), c)
  else if (tensors.getD 0 defaultTensor).device ≠ DeviceType.cpu then
    (.error (.invalidArgument "unsupported device type"), c)
  else if (tensors.getD 0 defaultTensor).layout ≠ Layout.strided then
    (.error (.invalidArgument "unsupported layout"), c)
  else
    let tc := nextTag c
    match (tensors.getD 0 defaultTensor).device, (tensors.getD 0 defaultTensor).layout with
    | .cpu, .strided => (.ok tc.1, tc.2)
    | .cpu, _ => (.error (.invalidArgument "unsupported layout"), tc.2)
    | _, _ => (.error (.runtimeError "Invalid backend"), tc.2)

/-- ProcessGroupGloo::reduce dispatch. -/
def reduceD (size : Nat) (c : Nat) (inputs : List TensorDesc)
    (rootRank rootTensor : Int) : Except GErr Nat × Nat :=
  if assertRootRank size rootRank = false then
    (.error (.invalidArgument "invalid root rank"), c)
  else if assertRootTensor inputs.length rootTensor = false then
    (.error (.invalidArgument "invalid root tensor"), c)
  else if assertSingleElement inputs = false then
    (.error (.invalidArgument "requires a single-element tensor list"), c)
  else if assertDense inputs = false then
    (.error (.invalidArgument "all tensors must be dense"), c)
  else if deviceSupported (inputs.getD 0 defaultTensor).device = false then
    (.error (.invalidArgument "unsupported device type"), c)
  else
    let tc := nextTag c
    match (inputs.getD 0 defaultTensor).device with
    | .cpu => (.ok tc.1, tc.2)
    | .cuda => (.ok tc.1, tc.2)
    | .other => (.error (.runtimeError "Invalid backend"), tc.2)

/-- ProcessGroupGloo::allgather dispatch. -/
def allgatherD (size : Nat) (c : Nat) (outputs : List (List TensorDesc))
    (inputs : List TensorDesc) : Except GErr Nat × Nat :=
  if inputs.length == 0 then
    (.error (.invalidArgument "requires non-empty input tensor list"), c)
  else if inputs.length ≠ outputs.length then
    (.error (.invalidArgument "requires input/output tensor lists to have the same length"), c)
  else if (outputs.all fun o => o.length == inputs.length * size) = false then
    (.error (.invalidArgument "invalid output tensor list"), c)
  else if assertDense inputs = false then
    (.error (.invalidArgument "all tensors must be dense"), c)
  else if typeAndSizesMatchWith (inputs.getD 0 defaultTensor) inputs = false then
    (.error (.invalidArgument "all tensors must have the same type and size"), c)
  else if (outputs.all fun o => typeAndSizesMatchWith (inputs.getD 0 defaultTensor) o) = false then
    (.error (.invalidArgument "all tensors must have the same type and size"), c)
  else if deviceSupported (inputs.getD 0 defaultTensor).device = false then
    (.error (.invalidArgument "unsupported device type"), c)
  else
    let tc := nextTag c
    match (inputs.getD 0 defaultTensor).device with
    | .cpu => (.ok tc.1, tc.2)
    | .cuda => (.ok tc.1, tc.2)
    | .other => (.error (.runtimeError "Invalid backend"), tc.2)

/-- ProcessGroupGloo::gather dispatch for a group member of rank `rank`. -/
def gatherD (size rank : Nat) (c : Nat) (outputs : List (List TensorDesc))
    (inputs : List TensorDesc) (rootRank : Int) : Except GErr Nat × Nat :=
  if assertRootRank size rootRank = false then
    (.error (.invalidArgument "invalid root rank"), c)
  else if assertSingleElement inputs = false then
    (.error (.invalidArgument "requires a single-element input tensor list"), c)
  else if assertDense inputs = false then
    (.error (.invalidArgument "all tensors must be dense"), c)
  else if (rank : Int) = rootRank ∧
      ¬(outputs.length = 1 ∧ (outputs.getD 0 []).length = size) then
    (.error (.invalidArgument "requires a single-element output list containing a list with size tensors"), c)
  else if (rank : Int) = rootRank ∧
      typeAndSizesMatchWith (inputs.getD 0 defaultTensor) (outputs.getD 0 []) = false then
    (.error (.invalidArgument "all tensors must have the same type and size"), c)
  else if (rank : Int) ≠ rootRank ∧ outputs.length ≠ 0 then
    (.error (.invalidArgument "requires empty output on non-root"), c)
  else if deviceSupported (inputs.getD 0 defaultTensor).device = false then
    (.error (.invalidArgument "unsupported device type"), c)
  else
    let tc := nextTag c
    match (inputs.getD 0 defaultTensor).device with
    | .cpu => (.ok tc.1, tc.2)
    | .cuda => (.ok tc.1, tc.2)
    | .other => (.error (.runtimeError "Invalid backend"), tc.2)

/-- ProcessGroupGloo::scatter dispatch for a group member of rank `rank`. -/
def scatterD (size rank : Nat) (c : Nat) (outputs : List TensorDesc)
    (inputs : List (List TensorDesc)) (rootRank : Int) : Except GErr Nat × Nat :=
  if assertRootRank size rootRank = false then
    (.error (.invalidArgument "invalid root rank"), c)
  else if assertSingleElement outputs = false then
    (.error (.invalidArgument "requires a single-element output tensor list"), c)
  else if assertDense outputs = false then
    (.error (.invalidArgument "all tensors must be dense"), c)
  else if (rank : Int) = rootRank ∧
      ¬(inputs.length = 1 ∧ (inputs.getD 0 []).length = size) then
    (.error (.invalidArgument "requires a single-element input list containing a list with size tensors"), c)
  else if (rank : Int) = rootRank ∧
      typeAndSizesMatchWith (outputs.getD 0 defaultTensor) (inputs.getD 0 []) = false then
    (.error (.invalidArgument "all tensors must have the same type and size"), c)
  else if (rank : Int) ≠ rootRank ∧ inputs.length ≠ 0 then
    (.error (.invalidArgument "requires empty input on non-root"), c)
  else if deviceSupported (outputs.getD 0 defaultTensor).device = false then
    (.error (.invalidArgument "unsupported device type"), c)
  else
    let tc := nextTag c
    match (outputs.getD 0 defaultTensor).device with
    | .cpu => (.ok tc.1, tc.2)
    | .cuda => (.ok tc.1, tc.2)
    | .other => (.error (.runtimeError "Invalid backend"), tc.2)

/-! ## Worker pool and queue (runLoop / enqueue / destructor)

The pool is modelled as a transition system over the queue, the per-worker
in-progress slots, an execution log, and the stop flag, with one transition
per mutex-protected critical section of the source. -/

structure PoolState where
  workQueue : List Nat
  workInProgress : List (Option Nat)
  executedLog : List Nat
  enqueuedLog : List Nat
  stopFlag : Bool
deriving Repr, DecidableEq

/-- The work items currently held by a worker. -/
def slotWork (s : PoolState) : List Nat := s.workInProgress.filterMap id

/-- One transition of the pool protocol.

* `enqueue`: ProcessGroupGloo::enqueue pushes a work item to the queue.
* `pop`: a worker in runLoop, observing `!stop_`, moves the queue front into
  its workInProgress slot.
* `execute`: the worker completes `AsyncWork::execute` and clears its slot.
* `setStop`: the destructor, having waited on workConsumeCV_ until the queue
  is empty, sets the stop flag. -/
inductive PoolStep : PoolState → PoolState → Prop where
  | enqueue (s : PoolState) (w : Nat) (h : s.stopFlag = false) :
      PoolStep s ⟨s.workQueue ++ [w], s.workInProgress, s.executedLog,
        s.enqueuedLog ++ [w], s.stopFlag⟩
  | pop (s : PoolState) (i w : Nat) (rest : List Nat)
      (hq : s.workQueue = w :: rest)
      (hi : i < s.workInProgress.length)
      (hslot : s.workInProgress.getD i none = none)
      (hstop : s.stopFlag = false) :
      PoolStep s ⟨rest, s.workInProgress.set i (some w), s.executedLog,
        s.enqueuedLog, s.stopFlag⟩
  | execute (s : PoolState) (i w : Nat)
      (hslot : s.workInProgress.getD i none = some w) :
      PoolStep s ⟨s.workQueue, s.workInProgress.set i none,
        s.executedLog ++ [w], s.enqueuedLog, s.stopFlag⟩
  | setStop (s : PoolState) (hq : s.workQueue = []) (hstop : s.stopFlag = false) :
      PoolStep s ⟨s.workQueue, s.workInProgress, s.executedLog, s.enqueuedLog, true⟩

/-- Freshly constructed pool with `T` worker threads. -/
def poolInit (T : Nat) : PoolState := ⟨[], List.replicate T none, [], [], false⟩

/-- States the pool can reach from construction. -/
def PoolReachable (T : Nat) (s : PoolState) : Prop :=
  Relation.ReflTransGen PoolStep (poolInit T) s

/-! ## RecvWork handle -/

/-- Outcome of one buffer_->waitRecv call: the resolved source rank on
success, or a captured exception. -/
inductive RecvOutcome where
  | success (src : Int)
  | failure
deriving Repr, DecidableEq

structure RecvWorkState where
  srcRank : Int
  completed : Bool
  hasException : Bool
deriving Repr, DecidableEq

/-- RecvWork::RecvWork: srcRank_ is initialized to -1. -/
def RecvWork.init : RecvWorkState := ⟨-1, false, false⟩

/-- RecvWork::wait: waitRecv(&srcRank_) writes the resolved sender on
success; on an exception srcRank_ is left untouched and the exception is
captured; completed_ is set either way. -/
def RecvWork.wait (s : RecvWorkState) (o : RecvOutcome) : RecvWorkState :=
  match o with
  | .success src => ⟨src, true, s.hasException⟩
  | .failure => ⟨s.srcRank, true, true⟩

/-- RecvWork::sourceRank. -/
def RecvWork.sourceRank (s : RecvWorkState) : Int := s.srcRank

/-- The handle state after a sequence of wait outcomes. -/
def runWaits (outcomes : List RecvOutcome) : RecvWorkState :=
  outcomes.foldl RecvWork.wait RecvWork.init

/-- The populated row, written out slot by slot. -/
theorem populate_eq (t : SparseTensor) :
    SparseTensorMetadata.populate_from_sparse_tensor t =
      [if 0 < t.sparse_dim then (t.size 0 : Int) else 0,
       if 1 < t.sparse_dim then (t.size 1 : Int) else 0,
       if 2 < t.sparse_dim then (t.size 2 : Int) else 0,
       if 3 < t.sparse_dim then (t.size 3 : Int) else 0,
       if 0 < t.dense_dim then (t.size (t.sparse_dim + 0) : Int) else 0,
       if 1 < t.dense_dim then (t.size (t.sparse_dim + 1) : Int) else 0,
       if 2 < t.dense_dim then (t.size (t.sparse_dim + 2) : Int) else 0,
       if 3 < t.dense_dim then (t.size (t.sparse_dim + 3) : Int) else 0,
       (t.nnz : Int)] := rfl

/-- Reading slot 8 back recovers the tensor's nnz. -/
theorem nnz_populate (t : SparseTensor) :
    SparseTensorMetadata.nnz (SparseTensorMetadata.populate_from_sparse_tensor t) =
      (t.nnz : Int) := rfl

/-- Reading a 4-slot block back: the zero padding terminates the read, so a
block holding at most four strictly positive sizes is recovered exactly. -/
theorem takeWhile_block (l : List Nat) (f : Nat → Int) (h4 : l.length ≤ 4)
    (hpos : ∀ x ∈ l, 0 < x) (hf : ∀ i, i < l.length → f i = (l.getD i 0 : Int)) :
    List.takeWhile (fun v => decide (0 < v))
      [if 0 < l.length then f 0 else 0, if 1 < l.length then f 1 else 0,
       if 2 < l.length then f 2 else 0, if 3 < l.length then f 3 else 0]
      = l.map (fun n => (n : Int)) := by
  rcases l with _ | ⟨a, _ | ⟨b, _ | ⟨c, _ | ⟨d, rest⟩⟩⟩⟩
  · simp [List.takeWhile]
  · have ha := hpos a (by simp)
    have hfa := hf 0 (by simp)
    simp [List.takeWhile, List.getD] at hfa ⊢
    simp [hfa, ha]
  · have ha := hpos a (by simp)
    have hb := hpos b (by simp)
    have hfa := hf 0 (by simp)
    have hfb := hf 1 (by simp)
    simp [List.takeWhile, List.getD] at hfa hfb ⊢
    simp [hfa, hfb, ha, hb]
  · have ha := hpos a (by simp)
    have hb := hpos b (by simp)
    have hc := hpos c (by simp)
    have hfa := hf 0 (by simp)
    have hfb := hf 1 (by simp)
    have hfc := hf 2 (by simp)
    simp [List.takeWhile, List.getD] at hfa hfb hfc ⊢
    simp [hfa, hfb, hfc, ha, hb, hc]
  · have hrest : rest = [] := by
      simp only [List.length_cons] at h4
      exact List.eq_nil_of_length_eq_zero (by omega)
    subst hrest
    have ha := hpos a (by simp)
    have hb := hpos b (by simp)
    have hc := hpos c (by simp)
    have hd := hpos d (by simp)
    have hfa := hf 0 (by simp)
    have hfb := hf 1 (by simp)
    have hfc := hf 2 (by simp)
    have hfd := hf 3 (by simp)
    simp [List.takeWhile, List.getD] at hfa hfb hfc hfd ⊢
    simp [hfa, hfb, hfc, hfd, ha, hb, hc, hd]

/-- C9: for a sparse-coo tensor with sparse_dim ≤ 4, dense_dim ≤ 4 and all
dimension sizes strictly positive, populating the 9-slot int64 metadata
record with populate_from_sparse_tensor and reading it back yields exactly
the tensor's data: sizes() returns the sparse sizes followed by the dense
sizes, and nnz() returns its number of non-zero entries. -/
theorem metadata_roundtrip (t : SparseTensor)
    (h1 : t.sparse_dim ≤ 4) (h2 : t.dense_dim ≤ 4)
    (hpos : ∀ s ∈ t.sizes, 0 < s) :
    SparseTensorMetadata.populateOk t = true ∧
    SparseTensorMetadata.sizes (SparseTensorMetadata.populate_from_sparse_tensor t) =
      t.sizes.map (fun n => (n : Int)) ∧
    SparseTensorMetadata.nnz (SparseTensorMetadata.populate_from_sparse_tensor t) =
      (t.nnz : Int) := by
  refine ⟨by simp [SparseTensorMetadata.populateOk, h1, h2], ?_, nnz_populate t⟩
  have hs : ∀ x ∈ t.sparseShape, 0 < x := fun x hx =>
    hpos x (by simp [SparseTensor.sizes, hx])
  have hd : ∀ x ∈ t.denseShape, 0 < x := fun x hx =>
    hpos x (by simp [SparseTensor.sizes, hx])
  have hblock1 := takeWhile_block t.sparseShape (fun i => (t.size i : Int)) h1 hs
    (fun i hi => by
      simp only [SparseTensor.size, SparseTensor.sizes]
      rw [List.getD_append _ _ _ _ hi])
  have hblock2 := takeWhile_block t.denseShape
    (fun i => (t.size (t.sparse_dim + i) : Int)) h2 hd
    (fun i hi => by
      simp only [SparseTensor.size, SparseTensor.sizes, SparseTensor.sparse_dim]
      rw [List.getD_append_right _ _ _ _ (by omega)]
      have hidx : t.sparseShape.length + i - t.sparseShape.length = i := by omega
      rw [hidx])
  rw [populate_eq]
  unfold SparseTensorMetadata.sizes
  simp only [List.take, List.drop, SparseTensor.sparse_dim, SparseTensor.dense_dim] at hblock1 hblock2 ⊢
  rw [hblock1, hblock2]
  simp [SparseTensor.sizes]

/-- C9 witness: a concrete tensor with 2 sparse and 1 dense dimension. -/
theorem metadata_roundtrip_witness :
    (SparseTensor.mk [2, 3] [4] [([0, 1], [7, 0, -2, 5])]).sparse_dim ≤ 4 ∧
    (SparseTensor.mk [2, 3] [4] [([0, 1], [7, 0, -2, 5])]).dense_dim ≤ 4 ∧
    (∀ s ∈ (SparseTensor.mk [2, 3] [4] [([0, 1], [7, 0, -2, 5])]).sizes, 0 < s) ∧
    (SparseTensorMetadata.populateOk (SparseTensor.mk [2, 3] [4] [([0, 1], [7, 0, -2, 5])]) = true ∧
      SparseTensorMetadata.sizes
          (SparseTensorMetadata.populate_from_sparse_tensor
            (SparseTensor.mk [2, 3] [4] [([0, 1], [7, 0, -2, 5])])) =
        (SparseTensor.mk [2, 3] [4] [([0, 1], [7, 0, -2, 5])]).sizes.map (fun n => (n : Int)) ∧
      SparseTensorMetadata.nnz
          (SparseTensorMetadata.populate_from_sparse_tensor
            (SparseTensor.mk [2, 3] [4] [([0, 1], [7, 0, -2, 5])])) =
        ((SparseTensor.mk [2, 3] [4] [([0, 1], [7, 0, -2, 5])]).nnz : Int)) :=
  ⟨by decide, by decide, by decide,
    metadata_roundtrip (SparseTensor.mk [2, 3] [4] [([0, 1], [7, 0, -2, 5])])
      (by decide) (by decide) (by decide)⟩

/-! ### List micro-lemmas used by the sparse allreduce proofs -/

theorem getD_map_lt {α β : Type} (l : List α) (f : α → β) (d : α) (dd : β) (i : Nat)
    (hi : i < l.length) : (l.map f).getD i dd = f (l.getD i d) := by
  induction l generalizing i with
  | nil => simp at hi
  | cons a l ih =>
    cases i with
    | zero => simp [List.getD]
    | succ n =>
      simp only [List.map_cons, List.getD_cons_succ]
      exact ih n (Nat.lt_of_succ_lt_succ hi)

theorem range_map_getD {α β : Type} (l : List α) (d : α) (f : α → β) :
    (List.range l.length).map (fun i => f (l.getD i d)) = l.map f := by
  induction l with
  | nil => simp
  | cons a l ih =>
    have h1 : List.range (a :: l).length = 0 :: (List.range l.length).map (· + 1) := by
      rw [List.length_cons, List.range_succ_eq_map]
    rw [h1, List.map_cons, List.map_map]
    have h2 : ((fun i => f ((a :: l).getD i d)) ∘ (· + 1)) = fun i => f (l.getD i d) := by
      funext i
      simp [List.getD]
    rw [h2, ih]
    simp [List.getD]

theorem zip_map_fst_snd' {α β : Type} (l : List (α × β)) :
    (l.map Prod.fst).zip (l.map Prod.snd) = l := by
  induction l with
  | nil => rfl
  | cons p l ih => simp [ih]

/-! ### Properties of coalesce -/

theorem evalKey_nil (S : List Nat) (D : Nat) (k : Int) :
    evalKey S D [] k = List.replicate D 0 := rfl

theorem evalKey_cons (S : List Nat) (D : Nat) (e : List Int × List Int)
    (l : List (List Int × List Int)) (k : Int) :
    evalKey S D (e :: l) k =
      if flattenIdx S e.1 = k then vecAdd e.2 (evalKey S D l k)
      else evalKey S D l k := by
  by_cases h : flattenIdx S e.1 = k <;>
    simp [evalKey, List.filter_cons, h, sumVecs_cons]

theorem insertCoalesced_cons (S : List Nat) (e f : List Int × List Int)
    (rest : List (List Int × List Int)) :
    insertCoalesced S e (f :: rest) =
      if flattenIdx S e.1 < flattenIdx S f.1 then e :: f :: rest
      else if flattenIdx S e.1 = flattenIdx S f.1 then
        (f.1, vecAdd f.2 e.2) :: rest
      else f :: insertCoalesced S e rest := rfl

theorem evalKey_insert (S : List Nat) (D : Nat) (e : List Int × List Int)
    (l : List (List Int × List Int)) (k : Int) :
    evalKey S D (insertCoalesced S e l) k = evalKey S D (e :: l) k := by
  induction l with
  | nil => rfl
  | cons f rest ih =>
    rw [insertCoalesced_cons]
    by_cases h1 : flattenIdx S e.1 < flattenIdx S f.1
    · rw [if_pos h1]
    · rw [if_neg h1]
      by_cases h2 : flattenIdx S e.1 = flattenIdx S f.1
      · rw [if_pos h2, evalKey_cons, evalKey_cons, evalKey_cons]
        by_cases hk : flattenIdx S f.1 = k
        · have hek : flattenIdx S e.1 = k := by rw [h2]; exact hk
          simp only [hk, hek, if_pos, if_true]
          rw [vecAdd_comm f.2 e.2, vecAdd_assoc]
        · have hek : ¬flattenIdx S e.1 = k := by rw [h2]; exact hk
          simp [hk, hek]
      · rw [if_neg h2, evalKey_cons, ih, evalKey_cons, evalKey_cons, evalKey_cons]
        by_cases hke : flattenIdx S e.1 = k <;> by_cases hkf : flattenIdx S f.1 = k
        · exact absurd (hke.trans hkf.symm) h2
        · simp [hke, hkf]
        · simp [hke, hkf]
        · simp [hke, hkf]

theorem evalKey_coalesce (S : List Nat) (D : Nat)
    (l : List (List Int × List Int)) (k : Int) :
    evalKey S D (coalesceEntries S l) k = evalKey S D l k := by
  induction l with
  | nil => rfl
  | cons e l ih =>
    have hstep : coalesceEntries S (e :: l) = insertCoalesced S e (coalesceEntries S l) := rfl
    rw [hstep, evalKey_insert, evalKey_cons, evalKey_cons, ih]

theorem evalKey_append (S : List Nat) (D : Nat) (l1 l2 : List (List Int × List Int))
    (k : Int) (h2 : ∀ e ∈ l2, e.2.length = D) :
    evalKey S D (l1 ++ l2) k = vecAdd (evalKey S D l1 k) (evalKey S D l2 k) := by
  unfold evalKey
  rw [List.filter_append, List.map_append, sumVecs_append]
  intro v hv
  rcases List.mem_map.mp hv with ⟨e, he, rfl⟩
  exact h2 e (List.mem_of_mem_filter he)

theorem evalKey_flatten (S : List Nat) (D : Nat)
    (L : List (List (List Int × List Int))) (k : Int)
    (h : ∀ l ∈ L, ∀ e ∈ l, e.2.length = D) :
    evalKey S D L.flatten k = sumVecs D (L.map fun l => evalKey S D l k) := by
  induction L with
  | nil => rfl
  | cons l L ih =>
    rw [List.flatten_cons,
      evalKey_append S D l L.flatten k
        (fun e he => by
          rcases List.mem_flatten.mp he with ⟨l', hl', he'⟩
          exact h l' (by simp [hl']) e he'),
      ih (fun l' hl' => h l' (by simp [hl'])), List.map_cons, sumVecs_cons]

theorem entryKeys_cons (S : List Nat) (e : List Int × List Int)
    (l : List (List Int × List Int)) :
    entryKeys S (e :: l) = flattenIdx S e.1 :: entryKeys S l := rfl

theorem mem_entryKeys_insert (S : List Nat) (e : List Int × List Int)
    (l : List (List Int × List Int)) (x : Int)
    (hx : x ∈ entryKeys S (insertCoalesced S e l)) :
    x = flattenIdx S e.1 ∨ x ∈ entryKeys S l := by
  induction l with
  | nil =>
    left
    simpa [insertCoalesced, entryKeys] using hx
  | cons f rest ih =>
    rw [insertCoalesced_cons] at hx
    by_cases h1 : flattenIdx S e.1 < flattenIdx S f.1
    · rw [if_pos h1, entryKeys_cons] at hx
      exact List.mem_cons.mp hx
    · rw [if_neg h1] at hx
      by_cases h2 : flattenIdx S e.1 = flattenIdx S f.1
      · rw [if_pos h2, entryKeys_cons] at hx
        rcases List.mem_cons.mp hx with rfl | hx'
        · right
          rw [entryKeys_cons]
          exact List.mem_cons_self _ _
        · right
          rw [entryKeys_cons]
          exact List.mem_cons_of_mem _ hx'
      · rw [if_neg h2, entryKeys_cons] at hx
        rcases List.mem_cons.mp hx with rfl | hx'
        · right
          rw [entryKeys_cons]
          exact List.mem_cons_self _ _
        · rcases ih hx' with h | h
          · exact Or.inl h
          · right
            rw [entryKeys_cons]
            exact List.mem_cons_of_mem _ h

theorem pairwise_entryKeys_insert (S : List Nat) (e : List Int × List Int)
    (l : List (List Int × List Int))
    (h : (entryKeys S l).Pairwise (· < ·)) :
    (entryKeys S (insertCoalesced S e l)).Pairwise (· < ·) := by
  induction l with
  | nil => simp [insertCoalesced, entryKeys]
  | cons f rest ih =>
    rw [entryKeys_cons] at h
    obtain ⟨hf, hrest⟩ := List.pairwise_cons.mp h
    rw [insertCoalesced_cons]
    by_cases h1 : flattenIdx S e.1 < flattenIdx S f.1
    · rw [if_pos h1, entryKeys_cons, entryKeys_cons]
      refine List.Pairwise.cons ?_ h
      intro x hx
      rcases List.mem_cons.mp hx with rfl | hx'
      · exact h1
      · exact lt_trans h1 (hf x hx')
    · rw [if_neg h1]
      by_cases h2 : flattenIdx S e.1 = flattenIdx S f.1
      · rw [if_pos h2, entryKeys_cons]
        exact List.Pairwise.cons hf hrest
      · rw [if_neg h2, entryKeys_cons]
        refine List.Pairwise.cons ?_ (ih hrest)
        intro x hx
        rcases mem_entryKeys_insert S e rest x hx with rfl | hx'
        · omega
        · exact hf x hx'

theorem pairwise_entryKeys_coalesce (S : List Nat)
    (l : List (List Int × List Int)) :
    (entryKeys S (coalesceEntries S l)).Pairwise (· < ·) := by
  induction l with
  | nil => simp [coalesceEntries, entryKeys]
  | cons e l ih => exact pairwise_entryKeys_insert S e _ ih

theorem WFE_insert (S : List Nat) (D : Nat) (e : List Int × List Int)
    (l : List (List Int × List Int)) (hl : WFE S D l)
    (he : inBounds S e.1 = true ∧ e.2.length = D) :
    WFE S D (insertCoalesced S e l) := by
  induction l with
  | nil =>
    intro x hx
    simp only [insertCoalesced, List.mem_singleton] at hx
    subst hx
    exact he
  | cons f rest ih =>
    have hf := hl f (by simp)
    have hrest : WFE S D rest := fun x hx => hl x (by simp [hx])
    rw [insertCoalesced_cons]
    by_cases h1 : flattenIdx S e.1 < flattenIdx S f.1
    · rw [if_pos h1]
      intro x hx
      rcases List.mem_cons.mp hx with rfl | hx'
      · exact he
      · exact hl x hx'
    · rw [if_neg h1]
      by_cases h2 : flattenIdx S e.1 = flattenIdx S f.1
      · rw [if_pos h2]
        intro x hx
        rcases List.mem_cons.mp hx with rfl | hx'
        · refine ⟨hf.1, ?_⟩
          rw [vecAdd_length, hf.2, he.2]
          simp
        · exact hrest x hx'
      · rw [if_neg h2]
        intro x hx
        rcases List.mem_cons.mp hx with rfl | hx'
        · exact hf
        · exact ih hrest x hx'

theorem WFE_coalesce (S : List Nat) (D : Nat)
    (l : List (List Int × List Int)) (h : WFE S D l) :
    WFE S D (coalesceEntries S l) := by
  induction l with
  | nil => intro x hx; simp [coalesceEntries] at hx
  | cons e l ih =>
    exact WFE_insert S D e _ (ih fun x hx => h x (by simp [hx])) (h e (by simp))

theorem evalCoord_eq_evalKey (t : SparseTensor) (idx : List Int)
    (hwf : t.WF) (hidx : inBounds t.sparseShape idx = true) :
    t.evalCoord idx =
      evalKey t.sparseShape (listProd t.denseShape) t.entries
        (flattenIdx t.sparseShape idx) := by
  unfold SparseTensor.evalCoord evalKey
  congr 2
  apply List.filter_congr
  intro e he
  have hb := (hwf e he).1
  by_cases h : e.1 = idx
  · simp [h]
  · have hne : flattenIdx t.sparseShape e.1 ≠ flattenIdx t.sparseShape idx := by
      intro hc
      exact h (flattenIdx_inj _ _ _ hb hidx hc)
    simp [h, hne]

theorem zip_map_same {α β γ : Type} (l : List α) (f : α → β) (g : α → γ) :
    (l.map f).zip (l.map g) = l.map fun a => (f a, g a) := by
  induction l with
  | nil => rfl
  | cons a l ih => simp [ih]

/-! ### Shapes and entries through the sparse pipeline -/

theorem coalesce_sparseShape (t : SparseTensor) :
    t.coalesce.sparseShape = t.sparseShape := rfl

theorem coalesce_denseShape (t : SparseTensor) :
    t.coalesce.denseShape = t.denseShape := rfl

theorem coalesce_entries (t : SparseTensor) :
    t.coalesce.entries = coalesceEntries t.sparseShape t.entries := rfl

theorem foldl_add_sparseShape (ts : List SparseTensor) (acc : SparseTensor) :
    (ts.foldl SparseTensor.add acc).sparseShape = acc.sparseShape := by
  induction ts generalizing acc with
  | nil => rfl
  | cons t ts ih =>
    rw [List.foldl_cons, ih]
    rfl

theorem foldl_add_denseShape (ts : List SparseTensor) (acc : SparseTensor) :
    (ts.foldl SparseTensor.add acc).denseShape = acc.denseShape := by
  induction ts generalizing acc with
  | nil => rfl
  | cons t ts ih =>
    rw [List.foldl_cons, ih]
    rfl

theorem foldl_add_entries (ts : List SparseTensor) (acc : SparseTensor) :
    (ts.foldl SparseTensor.add acc).entries =
      acc.entries ++ (ts.map SparseTensor.entries).flatten := by
  induction ts generalizing acc with
  | nil => simp
  | cons t ts ih =>
    rw [List.foldl_cons, ih]
    simp [SparseTensor.add]

theorem localReduce_cons_sparseShape (u : SparseTensor) (us : List SparseTensor) :
    (localReduce (u :: us)).sparseShape = u.sparseShape :=
  foldl_add_sparseShape us u

theorem localReduce_cons_denseShape (u : SparseTensor) (us : List SparseTensor) :
    (localReduce (u :: us)).denseShape = u.denseShape :=
  foldl_add_denseShape us u

theorem localReduce_cons_entries (u : SparseTensor) (us : List SparseTensor) :
    (localReduce (u :: us)).entries =
      u.entries ++ (us.map SparseTensor.entries).flatten :=
  foldl_add_entries us u

theorem foldl_coo_entries (sS dS : List Nat)
    (ps : List (List (List Int) × List (List Int))) (acc : SparseTensor) :
    (ps.foldl (fun a q => a.add (sparse_coo_tensor q.1 q.2 sS dS)) acc).entries =
      acc.entries ++ (ps.map fun q => q.1.zip q.2).flatten := by
  induction ps generalizing acc with
  | nil => simp
  | cons p ps ih =>
    rw [List.foldl_cons, ih]
    simp [SparseTensor.add, sparse_coo_tensor]

theorem foldl_coo_sparseShape (sS dS : List Nat)
    (ps : List (List (List Int) × List (List Int))) (acc : SparseTensor) :
    (ps.foldl (fun a q => a.add (sparse_coo_tensor q.1 q.2 sS dS)) acc).sparseShape =
      acc.sparseShape := by
  induction ps generalizing acc with
  | nil => rfl
  | cons p ps ih =>
    rw [List.foldl_cons, ih]
    rfl

theorem foldl_coo_denseShape (sS dS : List Nat)
    (ps : List (List (List Int) × List (List Int))) (acc : SparseTensor) :
    (ps.foldl (fun a q => a.add (sparse_coo_tensor q.1 q.2 sS dS)) acc).denseShape =
      acc.denseShape := by
  induction ps generalizing acc with
  | nil => rfl
  | cons p ps ih =>
    rw [List.foldl_cons, ih]
    rfl

theorem buildSparseOutput_entries (input : SparseTensor)
    (p : List (List Int) × List (List Int))
    (ps : List (List (List Int) × List (List Int))) :
    (buildSparseOutput input (p :: ps)).entries =
      p.1.zip p.2 ++ (ps.map fun q => q.1.zip q.2).flatten := by
  unfold buildSparseOutput
  rw [foldl_coo_entries]
  rfl

theorem buildSparseOutput_sparseShape (input : SparseTensor)
    (p : List (List Int) × List (List Int))
    (ps : List (List (List Int) × List (List Int))) :
    (buildSparseOutput input (p :: ps)).sparseShape = input.sparseShape := by
  unfold buildSparseOutput
  rw [foldl_coo_sparseShape]
  rfl

theorem buildSparseOutput_denseShape (input : SparseTensor)
    (p : List (List Int) × List (List Int))
    (ps : List (List (List Int) × List (List Int))) :
    (buildSparseOutput input (p :: ps)).denseShape = input.denseShape := by
  unfold buildSparseOutput
  rw [foldl_coo_denseShape]
  rfl

/-! ### The allgather rows narrow back to each rank's own data -/

theorem allgather_indices_recover (size : Nat) (locals : List SparseTensor)
    (padI : Int) (hlen : locals.length = size) :
    allgather_indices size (allgather_metadata locals) locals padI =
      (List.range size).map fun i =>
        (locals.getD i SparseTensor.zero).entries.map Prod.fst := by
  simp only [allgather_indices]
  apply List.map_congr_left
  intro i hi
  have hi' : i < locals.length := by
    rw [hlen]
    exact List.mem_range.mp hi
  have hmd : (allgather_metadata locals).getD i [] =
      SparseTensorMetadata.populate_from_sparse_tensor (locals.getD i SparseTensor.zero) := by
    unfold allgather_metadata
    exact getD_map_lt locals _ SparseTensor.zero [] i hi'
  rw [hmd, nnz_populate, Int.toNat_natCast]
  have hlen2 : (locals.getD i SparseTensor.zero).nnz =
      ((locals.getD i SparseTensor.zero).entries.map Prod.fst).length := by
    simp [SparseTensor.nnz]
  rw [hlen2, List.take_left]

theorem allgather_values_recover (size : Nat) (locals : List SparseTensor)
    (padV : Int) (hlen : locals.length = size) :
    allgather_values size (allgather_metadata locals) locals padV =
      (List.range size).map fun i =>
        (locals.getD i SparseTensor.zero).entries.map Prod.snd := by
  simp only [allgather_values]
  apply List.map_congr_left
  intro i hi
  have hi' : i < locals.length := by
    rw [hlen]
    exact List.mem_range.mp hi
  have hmd : (allgather_metadata locals).getD i [] =
      SparseTensorMetadata.populate_from_sparse_tensor (locals.getD i SparseTensor.zero) := by
    unfold allgather_metadata
    exact getD_map_lt locals _ SparseTensor.zero [] i hi'
  rw [hmd, nnz_populate, Int.toNat_natCast]
  have hlen2 : (locals.getD i SparseTensor.zero).nnz =
      ((locals.getD i SparseTensor.zero).entries.map Prod.snd).length := by
    simp [SparseTensor.nnz]
  rw [hlen2, List.take_left]

/-- The gathered (indices, values) rows are exactly each rank's coalesced
local entries, split into columns. -/
theorem gathered_rows (size : Nat) (locals : List SparseTensor) (padI padV : Int)
    (hlen : locals.length = size) :
    (allgather_indices size (allgather_metadata locals) locals padI).zip
        (allgather_values size (allgather_metadata locals) locals padV) =
      locals.map fun t =>
        (t.entries.map Prod.fst, t.entries.map Prod.snd) := by
  rw [allgather_indices_recover size locals padI hlen,
    allgather_values_recover size locals padV hlen, zip_map_same]
  rw [← hlen]
  exact range_map_getD locals SparseTensor.zero
    (fun t => (t.entries.map Prod.fst, t.entries.map Prod.snd))

/-- Well-formedness of the local pre-reduction over tensors of common shape. -/
theorem WF_localReduce (S DS : List Nat) (u : SparseTensor) (us : List SparseTensor)
    (hshape : ∀ v ∈ u :: us, v.sparseShape = S ∧ v.denseShape = DS)
    (hwf : ∀ v ∈ u :: us, v.WF) :
    WFE S (listProd DS) (localReduce (u :: us)).entries := by
  rw [localReduce_cons_entries]
  intro e he
  rcases List.mem_append.mp he with he' | he'
  · have h1 := hwf u (by simp) e he'
    obtain ⟨hsu, hdu⟩ := hshape u (by simp)
    rw [hsu, hdu] at h1
    exact h1
  · rcases List.mem_flatten.mp he' with ⟨el, hel, hee⟩
    rcases List.mem_map.mp hel with ⟨v, hv, rfl⟩
    have h1 := hwf v (by simp [hv]) e hee
    obtain ⟨hsv, hdv⟩ := hshape v (by simp [hv])
    rw [hsv, hdv] at h1
    exact h1

theorem getD_mem' {α : Type} (l : List α) (d : α) (i : Nat) (hi : i < l.length) :
    l.getD i d ∈ l := by
  induction l generalizing i with
  | nil => simp at hi
  | cons a l ih =>
    cases i with
    | zero => simp [List.getD]
    | succ n =>
      rw [List.getD_cons_succ]
      exact List.mem_cons_of_mem a (ih n (Nat.lt_of_succ_lt_succ hi))

/-- Shape, entries, and well-formedness of one rank's coalesced local
reduction over tensors of common shape. -/
theorem coalescedLocal_facts (S DS : List Nat) (u : SparseTensor)
    (us : List SparseTensor)
    (hshape : ∀ v ∈ u :: us, v.sparseShape = S ∧ v.denseShape = DS)
    (hwf : ∀ v ∈ u :: us, v.WF) :
    (localReduce (u :: us)).coalesce.sparseShape = S ∧
    (localReduce (u :: us)).coalesce.denseShape = DS ∧
    (localReduce (u :: us)).coalesce.entries =
      coalesceEntries S (localReduce (u :: us)).entries ∧
    WFE S (listProd DS) (localReduce (u :: us)).coalesce.entries := by
  have hsS : (localReduce (u :: us)).sparseShape = S := by
    rw [localReduce_cons_sparseShape]
    exact (hshape u (by simp)).1
  have hdS : (localReduce (u :: us)).denseShape = DS := by
    rw [localReduce_cons_denseShape]
    exact (hshape u (by simp)).2
  refine ⟨by rw [coalesce_sparseShape, hsS], by rw [coalesce_denseShape, hdS], ?_, ?_⟩
  · rw [coalesce_entries, hsS]
  · rw [coalesce_entries, hsS]
    exact WFE_coalesce S _ _ (WF_localReduce S DS u us hshape hwf)

/-- Evaluation of one rank's coalesced local reduction at a coordinate. -/
theorem evalKey_coalescedLocal (S DS : List Nat) (u : SparseTensor)
    (us : List SparseTensor) (idx : List Int)
    (hshape : ∀ v ∈ u :: us, v.sparseShape = S ∧ v.denseShape = DS)
    (hwf : ∀ v ∈ u :: us, v.WF)
    (hidx : inBounds S idx = true) :
    evalKey S (listProd DS) (localReduce (u :: us)).coalesce.entries
        (flattenIdx S idx) =
      (localReduce (u :: us)).evalCoord idx := by
  obtain ⟨_, _, h3, _⟩ := coalescedLocal_facts S DS u us hshape hwf
  rw [h3, evalKey_coalesce]
  have hsS : (localReduce (u :: us)).sparseShape = S := by
    rw [localReduce_cons_sparseShape]
    exact (hshape u (by simp)).1
  have hdS : (localReduce (u :: us)).denseShape = DS := by
    rw [localReduce_cons_denseShape]
    exact (hshape u (by simp)).2
  have hWF : (localReduce (u :: us)).WF := by
    unfold SparseTensor.WF
    rw [hsS, hdS]
    exact WF_localReduce S DS u us hshape hwf
  rw [evalCoord_eq_evalKey _ idx hWF (by rw [hsS]; exact hidx), hsS, hdS]

/-- C1: for a world of sparse-coo input lists with identical sparse and dense
shapes across all ranks, whenever AsyncSparseAllreduceWork::allreduce returns
a tensor, that tensor's value at each coordinate equals the sum over all
ranks of the locally pre-summed input values at that coordinate, its shape
equals the shape of the inputs, and it is coalesced (unique, sorted
indices). -/
theorem sparse_allreduce_correct
    (size rank : Nat) (world : List (List SparseTensor)) (padI padV : Int)
    (S DS : List Nat) (t : SparseTensor)
    (hlen : world.length = size) (hrank : rank < size)
    (hne : ∀ ts ∈ world, ts ≠ [])
    (hshape : ∀ ts ∈ world, ∀ u ∈ ts, u.sparseShape = S ∧ u.denseShape = DS)
    (hwf : ∀ ts ∈ world, ∀ u ∈ ts, u.WF)
    (hok : allreduceSparse size rank world padI padV = Except.ok t) :
    (∀ idx, inBounds S idx = true →
        t.evalCoord idx =
          sumVecs (listProd DS) (world.map fun ts => (localReduce ts).evalCoord idx)) ∧
    t.sparseShape = S ∧ t.denseShape = DS ∧
    IsCoalesced t ∧ (t.entries.map Prod.fst).Nodup := by
  rcases world with _ | ⟨w0, wtail⟩
  · rw [List.length_nil] at hlen
    omega
  simp only [allreduceSparse] at hok
  split at hok
  · exact Except.noConfusion hok
  · split at hok
    · exact Except.noConfusion hok
    · injection hok with ht
      have hLlen : ((w0 :: wtail).map fun ts => (localReduce ts).coalesce).length = size := by
        rw [List.length_map]
        exact hlen
      rw [gathered_rows size ((w0 :: wtail).map fun ts => (localReduce ts).coalesce)
        padI padV hLlen] at ht
      have hmemW : (w0 :: wtail).getD rank [] ∈ w0 :: wtail :=
        getD_mem' _ [] rank (by rw [hlen]; exact hrank)
      obtain ⟨u, us, hts⟩ : ∃ u us, (w0 :: wtail).getD rank [] = u :: us := by
        cases hc : (w0 :: wtail).getD rank [] with
        | nil => exact absurd hc (hne _ hmemW)
        | cons u us => exact ⟨u, us, rfl⟩
      have hinput : ((w0 :: wtail).map fun ts => (localReduce ts).coalesce).getD rank
          SparseTensor.zero = (localReduce (u :: us)).coalesce := by
        rw [getD_map_lt (w0 :: wtail) _ [] SparseTensor.zero rank
          (by rw [hlen]; exact hrank), hts]
      have hshapeTs := hshape _ hmemW
      have hwfTs := hwf _ hmemW
      rw [hts] at hshapeTs hwfTs
      obtain ⟨hC1, hC2, _, _⟩ := coalescedLocal_facts S DS u us hshapeTs hwfTs
      have hmapcons : ((w0 :: wtail).map fun ts => (localReduce ts).coalesce) =
          (localReduce w0).coalesce :: (wtail.map fun ts => (localReduce ts).coalesce) :=
        rfl
      rw [hinput] at ht
      rw [hmapcons, List.map_cons] at ht
      have hrows : ∀ (Lt : List SparseTensor),
          ((Lt.map fun t' => (t'.entries.map Prod.fst, t'.entries.map Prod.snd)).map
            fun q => q.1.zip q.2) = Lt.map SparseTensor.entries := by
        intro Lt
        rw [List.map_map]
        apply List.map_congr_left
        intro t' _
        exact zip_map_fst_snd' t'.entries
      -- shapes of the result
      have hTs : t.sparseShape = S := by
        rw [← ht, coalesce_sparseShape, buildSparseOutput_sparseShape]
        exact hC1
      have hTd : t.denseShape = DS := by
        rw [← ht, coalesce_denseShape, buildSparseOutput_denseShape]
        exact hC2
      -- entries of the result
      have hTe : t.entries = coalesceEntries S
          ((((localReduce w0).coalesce ::
              (wtail.map fun ts => (localReduce ts).coalesce)).map
            SparseTensor.entries).flatten) := by
        rw [← ht, coalesce_entries, buildSparseOutput_sparseShape, hC1,
          buildSparseOutput_entries, zip_map_fst_snd', hrows, List.map_cons,
          List.flatten_cons]
      -- well-formedness of the joined entries
      have hJwf : WFE S (listProd DS)
          ((((localReduce w0).coalesce ::
              (wtail.map fun ts => (localReduce ts).coalesce)).map
            SparseTensor.entries).flatten) := by
        intro e he
        rcases List.mem_flatten.mp he with ⟨el, hel, hee⟩
        rcases List.mem_map.mp hel with ⟨Li, hLi, rfl⟩
        have hEx : ∃ ts ∈ w0 :: wtail, (localReduce ts).coalesce = Li := by
          rcases List.mem_cons.mp hLi with rfl | hLi'
          · exact ⟨w0, by simp, rfl⟩
          · rcases List.mem_map.mp hLi' with ⟨ts, hts', rfl⟩
            exact ⟨ts, by simp [hts'], rfl⟩
        obtain ⟨ts, htsmem, rfl⟩ := hEx
        obtain ⟨v, vs, rfl⟩ : ∃ v vs, ts = v :: vs := by
          cases ts with
          | nil => exact absurd rfl (hne [] htsmem)
          | cons v vs => exact ⟨v, vs, rfl⟩
        exact (coalescedLocal_facts S DS v vs (hshape _ htsmem) (hwf _ htsmem)).2.2.2 e hee
      have hTWF : t.WF := by
        unfold SparseTensor.WF
        rw [hTs, hTd, hTe]
        exact WFE_coalesce S (listProd DS) _ hJwf
      refine ⟨?_, hTs, hTd, ?_, ?_⟩
      · -- value at each coordinate
        intro idx hidx
        rw [evalCoord_eq_evalKey t idx hTWF (by rw [hTs]; exact hidx), hTs, hTd, hTe,
          evalKey_coalesce,
          evalKey_flatten S (listProd DS) _ _
            (fun l hl e he => (hJwf e (List.mem_flatten.mpr ⟨l, hl, he⟩)).2),
          List.map_map, ← hmapcons, List.map_map]
        apply congrArg (sumVecs (listProd DS))
        apply List.map_congr_left
        intro ts hts'
        obtain ⟨v, vs, rfl⟩ : ∃ v vs, ts = v :: vs := by
          cases ts with
          | nil => exact absurd rfl (hne [] hts')
          | cons v vs => exact ⟨v, vs, rfl⟩
        exact evalKey_coalescedLocal S DS v vs idx (hshape _ hts') (hwf _ hts') hidx
      · -- coalesced: strictly increasing flattened indices
        unfold IsCoalesced
        rw [hTs, hTe]
        exact List.chain'_iff_pairwise.mpr (pairwise_entryKeys_coalesce S _)
      · -- unique index vectors
        rw [hTe]
        have hp := pairwise_entryKeys_coalesce S
          ((((localReduce w0).coalesce ::
              (wtail.map fun ts => (localReduce ts).coalesce)).map
            SparseTensor.entries).flatten)
        have hnd : (entryKeys S (coalesceEntries S
            ((((localReduce w0).coalesce ::
                (wtail.map fun ts => (localReduce ts).coalesce)).map
              SparseTensor.entries).flatten))).Nodup :=
          hp.imp fun h => ne_of_lt h
        apply List.Nodup.of_map (flattenIdx S)
        rw [List.map_map]
        exact hnd

/-- C1 witness: a two-rank world, rank 0's view; one entry per rank at
distinct coordinates of a length-4 one-dimensional sparse tensor. -/
theorem sparse_allreduce_correct_witness :
    (([[(⟨[4], [], [([1], [3])]⟩ : SparseTensor)], [⟨[4], [], [([2], [5])]⟩]] :
        List (List SparseTensor)).length = 2) ∧
    (0 < 2) ∧
    (∀ ts ∈ ([[(⟨[4], [], [([1], [3])]⟩ : SparseTensor)],
        [⟨[4], [], [([2], [5])]⟩]] : List (List SparseTensor)), ts ≠ []) ∧
    (∀ ts ∈ ([[(⟨[4], [], [([1], [3])]⟩ : SparseTensor)],
        [⟨[4], [], [([2], [5])]⟩]] : List (List SparseTensor)),
      ∀ u ∈ ts, u.sparseShape = [4] ∧ u.denseShape = []) ∧
    (∀ ts ∈ ([[(⟨[4], [], [([1], [3])]⟩ : SparseTensor)],
        [⟨[4], [], [([2], [5])]⟩]] : List (List SparseTensor)), ∀ u ∈ ts, u.WF) ∧
    (allreduceSparse 2 0
        [[⟨[4], [], [([1], [3])]⟩], [⟨[4], [], [([2], [5])]⟩]] 7 9 =
      Except.ok ⟨[4], [], [([1], [3]), ([2], [5])]⟩) ∧
    ((∀ idx, inBounds [4] idx = true →
        SparseTensor.evalCoord ⟨[4], [], [([1], [3]), ([2], [5])]⟩ idx =
          sumVecs (listProd [])
            (([[(⟨[4], [], [([1], [3])]⟩ : SparseTensor)],
                [⟨[4], [], [([2], [5])]⟩]] : List (List SparseTensor)).map
              fun ts => (localReduce ts).evalCoord idx)) ∧
      (⟨[4], [], [([1], [3]), ([2], [5])]⟩ : SparseTensor).sparseShape = [4] ∧
      (⟨[4], [], [([1], [3]), ([2], [5])]⟩ : SparseTensor).denseShape = [] ∧
      IsCoalesced ⟨[4], [], [([1], [3]), ([2], [5])]⟩ ∧
      ((⟨[4], [], [([1], [3]), ([2], [5])]⟩ : SparseTensor).entries.map
        Prod.fst).Nodup) :=
  ⟨rfl, by decide, by decide, by decide, by decide, rfl,
    sparse_allreduce_correct 2 0
      [[⟨[4], [], [([1], [3])]⟩], [⟨[4], [], [([2], [5])]⟩]] 7 9 [4] []
      ⟨[4], [], [([1], [3]), ([2], [5])]⟩ rfl (by decide) (by decide) (by decide)
      (by decide) rfl⟩

/-- C2 (code bug): AsyncSparseAllreduceWork::run does not overwrite the
captured input tensors; it only pushes clones of the reduced result into the
`outputs` vector, contradicting its own "Copy back to input tensors" comment.
At a concrete uncoalesced single-rank input, run() completes with the inputs
list unchanged even though the reduced result differs from the input. -/
theorem sparse_run_leaves_inputs_unmodified :
    sparseRun 1 0 [[⟨[4], [], [([1], [5]), ([0], [3])]⟩]] 7 9 =
      Except.ok ([⟨[4], [], [([1], [5]), ([0], [3])]⟩],
        [⟨[4], [], [([0], [3]), ([1], [5])]⟩]) ∧
    (⟨[4], [], [([1], [5]), ([0], [3])]⟩ : SparseTensor) ≠
      ⟨[4], [], [([0], [3]), ([1], [5])]⟩ := by
  constructor
  · rfl
  · decide

/-- C3 (code bug): recvAnysource builds its source-rank list by resizing the
vector to `size` (pre-filling `size` zero entries) before appending ranks
0..size-1, so the list passed to the transport recv is not exactly the set
of ranks in [0,size).  At size = 2 the list is [0, 0, 0, 1] instead of
[0, 1]. -/
theorem recvAnysource_srcRanks_prefilled :
    recvAnysourceSrcRanks 2 = [0, 0, 0, 1] ∧
    ¬ (recvAnysourceSrcRanks 2).Perm ((List.range 2).map fun i => (i : Int)) := by
  constructor
  · rfl
  · decide

/-- checkSingleTensor only ever throws std::runtime_error. -/
theorem checkSingleTensor_runtime (tensors : List TensorDesc) (e : GErr)
    (h : checkSingleTensor tensors = Except.error e) : e.isRuntimeError = true := by
  unfold checkSingleTensor at h
  split at h
  · injection h with he
    rw [← he]
    rfl
  · simp only [] at h
    split at h
    · injection h with he
      rw [← he]
      rfl
    · split at h
      · injection h with he
        rw [← he]
        rfl
      · exact Except.noConfusion h

/-- C4 counterexample: send with tag −1 on a valid single tensor fails with
std::runtime_error ("Tag must be >= 0"), not with std::invalid_argument as
the claim states. -/
theorem send_negative_tag_not_invalid_argument :
    sendP [defaultTensor] 1 (-1) =
      ([], Except.error (GErr.runtimeError "Tag must be >= 0")) ∧
    opFailsInvalidArgument (sendP [defaultTensor] 1 (-1)) = false := by
  constructor
  · rfl
  · rfl

/-- C4 (amended): every send / recv / recvAnysource call with a negative tag
fails before any transport interaction (the event trace is empty), with a
std::runtime_error. -/
theorem pointToPoint_negative_tag (size : Nat) (tensors : List TensorDesc)
    (dst src tag : Int) (h : tag < 0) :
    ((sendP tensors dst tag).1 = [] ∧
      opFailsRuntimeError (sendP tensors dst tag) = true) ∧
    ((recvP tensors src tag).1 = [] ∧
      opFailsRuntimeError (recvP tensors src tag) = true) ∧
    ((recvAnysourceP size tensors tag).1 = [] ∧
      opFailsRuntimeError (recvAnysourceP size tensors tag) = true) := by
  have hct : checkTag tag = Except.error (GErr.runtimeError "Tag must be >= 0") := by
    unfold checkTag
    rw [if_pos h]
  unfold sendP recvP recvAnysourceP
  cases hcs : checkSingleTensor tensors with
  | error e =>
    have he := checkSingleTensor_runtime tensors e hcs
    simp [opFailsRuntimeError, he]
  | ok td => simp [hct, opFailsRuntimeError, GErr.isRuntimeError]

/-- C4 witness: concrete negative-tag calls. -/
theorem pointToPoint_negative_tag_witness :
    ((-5 : Int) < 0) ∧
    (((sendP [defaultTensor] 1 (-5)).1 = [] ∧
        opFailsRuntimeError (sendP [defaultTensor] 1 (-5)) = true) ∧
      ((recvP [defaultTensor] 2 (-5)).1 = [] ∧
        opFailsRuntimeError (recvP [defaultTensor] 2 (-5)) = true) ∧
      ((recvAnysourceP 4 [defaultTensor] (-5)).1 = [] ∧
        opFailsRuntimeError (recvAnysourceP 4 [defaultTensor] (-5)) = true)) :=
  ⟨by decide, pointToPoint_negative_tag 4 [defaultTensor] 1 2 (-5) (by decide)⟩

/-- The uint32 counter value after `n` nextTag calls is `n mod 2^32`. -/
theorem counterAfterCalls_eq_mod (n : Nat) :
    counterAfterCalls n = n % UINT32MOD := by
  induction n with
  | zero => rfl
  | succ n ih =>
    show (nextTag (counterAfterCalls n)).2 = (n + 1) % UINT32MOD
    unfold nextTag
    rw [ih]
    simp only [UINT32MOD]
    omega

theorem tagOfNth_eq_mod (n : Nat) : tagOfNth n = n % UINT32MOD := by
  unfold tagOfNth nextTag
  rw [counterAfterCalls_eq_mod]
  simp only [UINT32MOD]
  omega

/-- C6 counterexample: the 32-bit counter wraps, so the 2^32-th dispatched
work item receives the same tag as the first one. -/
theorem nextTag_wraps :
    tagOfNth 4294967296 = tagOfNth 0 ∧ (4294967296 : Nat) ≠ 0 := by
  constructor
  · rw [tagOfNth_eq_mod, tagOfNth_eq_mod]
    simp [UINT32MOD]
  · decide

/-- C6 (amended): among the first 2^32 work items dispatched by one group,
nextTag() assigns pairwise distinct tags. -/
theorem nextTag_distinct_below_wrap (i j : Nat) (hi : i < UINT32MOD)
    (hj : j < UINT32MOD) (hij : i ≠ j) : tagOfNth i ≠ tagOfNth j := by
  rw [tagOfNth_eq_mod, tagOfNth_eq_mod, Nat.mod_eq_of_lt hi, Nat.mod_eq_of_lt hj]
  exact hij

/-- C6 witness. -/
theorem nextTag_distinct_below_wrap_witness :
    (0 < UINT32MOD) ∧ (1 < UINT32MOD) ∧ (0 ≠ 1) ∧ tagOfNth 0 ≠ tagOfNth 1 :=
  ⟨by decide, by decide, by decide,
    nextTag_distinct_below_wrap 0 1 (by decide) (by decide) (by decide)⟩

/-- C7: after AsyncAllreduceWork::run on a dense CPU input list of length at
least 1, every list entry holds a copy of entry 0, and for SUM entry 0 holds
the transport reduction over every tensor of every rank. -/
theorem allreduce_dense_copies (op : ReduceOp) (world : List (List (List Int)))
    (rank : Nat) (r : List (List Int))
    (hne : world.getD rank [] ≠ [])
    (hok : allreduceRunCPU op world rank = Except.ok r) :
    r.length = (world.getD rank []).length ∧
    (∀ i, i < r.length → r.getD i [] = r.getD 0 []) ∧
    (op = ReduceOp.sum → r.getD 0 [] = reduceVecs (· + ·) world.flatten) := by
  unfold allreduceRunCPU at hok
  cases hf : toFunctionInt op with
  | none =>
    rw [hf] at hok
    exact Except.noConfusion hok
  | some f =>
    rw [hf] at hok
    injection hok with hr
    cases hin : world.getD rank [] with
    | nil => exact absurd hin hne
    | cons t0 rest =>
      unfold transportAllreduce at hr
      rw [hin] at hr
      unfold copyFirstIntoRest at hr
      rw [← hr]
      refine ⟨by simp, ?_, ?_⟩
      · intro i hi
        cases i with
        | zero => rfl
        | succ n =>
          simp only [List.getD_cons_succ, List.getD_cons_zero]
          have hn : n < rest.length := by
            simp at hi
            omega
          exact getD_map_lt rest _ [] [] n hn
      · intro hop
        subst hop
        have : f = (· + ·) := by
          have hf' : toFunctionInt ReduceOp.sum = some fun a b => a + b := rfl
          rw [hf'] at hf
          injection hf with hff
          rw [hff]
        rw [this]
        rfl

/-- C7 witness: two ranks, one length-2 int tensor each plus a second list
entry on the caller's rank. -/
theorem allreduce_dense_copies_witness :
    (([[ [1, 2], [10, 20] ], [[3, 4]]] : List (List (List Int))).getD 0 [] ≠ []) ∧
    (allreduceRunCPU ReduceOp.sum [[[1, 2], [10, 20]], [[3, 4]]] 0 =
      Except.ok [[14, 26], [14, 26]]) ∧
    (([[14, 26], [14, 26]] : List (List Int)).length =
      (([[ [1, 2], [10, 20] ], [[3, 4]]] : List (List (List Int))).getD 0 []).length ∧
    (∀ i, i < ([[14, 26], [14, 26]] : List (List Int)).length →
      ([[14, 26], [14, 26]] : List (List Int)).getD i [] =
        ([[14, 26], [14, 26]] : List (List Int)).getD 0 []) ∧
    (ReduceOp.sum = ReduceOp.sum →
      ([[14, 26], [14, 26]] : List (List Int)).getD 0 [] =
        reduceVecs (· + ·) ([[ [1, 2], [10, 20] ], [[3, 4]]] : List (List (List Int))).flatten)) :=
  ⟨by decide, by rfl,
    allreduce_dense_copies ReduceOp.sum [[[1, 2], [10, 20]], [[3, 4]]] 0
      [[14, 26], [14, 26]] (by decide) (by rfl)⟩

/-- C10: a RecvWork handle reports sourceRank() = −1 at construction and
after any sequence of failed waits; after a successful wait it reports the
resolved sender. -/
theorem recvWork_sourceRank_spec :
    RecvWork.sourceRank RecvWork.init = -1 ∧
    (∀ outcomes, (∀ o ∈ outcomes, o = RecvOutcome.failure) →
      RecvWork.sourceRank (runWaits outcomes) = -1) ∧
    (∀ outcomes src,
      RecvWork.sourceRank (runWaits (outcomes ++ [RecvOutcome.success src])) = src) := by
  refine ⟨rfl, ?_, ?_⟩
  · intro outcomes h
    have hgen : ∀ (l : List RecvOutcome) (s : RecvWorkState),
        (∀ o ∈ l, o = RecvOutcome.failure) →
        (l.foldl RecvWork.wait s).srcRank = s.srcRank := by
      intro l
      induction l with
      | nil => intro s _; rfl
      | cons o l ih =>
        intro s hl
        rw [List.foldl_cons, hl o (by simp)]
        rw [ih _ fun o' ho' => hl o' (by simp [ho'])]
        rfl
    exact hgen outcomes RecvWork.init h
  · intro outcomes src
    unfold runWaits
    rw [List.foldl_append]
    rfl

/-- C10 witness: one failed wait, then a successful wait resolving rank 3. -/
theorem recvWork_sourceRank_witness :
    (∀ o ∈ [RecvOutcome.failure], o = RecvOutcome.failure) ∧
    RecvWork.sourceRank (runWaits [RecvOutcome.failure]) = -1 ∧
    RecvWork.sourceRank (runWaits ([RecvOutcome.failure] ++ [RecvOutcome.success 3])) = 3 :=
  ⟨by decide, recvWork_sourceRank_spec.2.1 [RecvOutcome.failure] (by decide),
    recvWork_sourceRank_spec.2.2 [RecvOutcome.failure] 3⟩

/-- C5 counterexample: a CPU allreduce over tensors of (matching) mkldnn
layout passes every check that precedes nextTag() and only then fails with
invalid-argument "unsupported layout" — with the counter already advanced
from 0 to 1. -/
theorem allreduce_counter_advanced_on_layout_failure :
    (allreduceD 0 [⟨DeviceType.cpu, Layout.mkldnn, DType.f32, [1], true⟩]
        ReduceOp.sum).1 =
      Except.error (GErr.invalidArgument "unsupported layout") ∧
    (allreduceD 0 [⟨DeviceType.cpu, Layout.mkldnn, DType.f32, [1], true⟩]
        ReduceOp.sum).2 = 1 ∧
    (1 : Nat) ≠ 0 := by
  refine ⟨rfl, rfl, by decide⟩

set_option maxHeartbeats 2000000 in
/-- C5 (amended): for broadcast, allreduce_coalesced, reduce, allgather,
gather and scatter, every validation failure raises its exception with the
collective counter unchanged; for allreduce the same holds except that
tensors whose (matching) layout is neither strided nor sparse are rejected
only after the counter has been advanced. -/
theorem dispatch_validation_preserves_counter
    (size rank c : Nat) (inputs tensors : List TensorDesc)
    (outputsL : List (List TensorDesc)) (outputs1 : List TensorDesc)
    (inputsL : List (List TensorDesc)) (rootRank rootTensor : Int)
    (op : ReduceOp) :
    ((broadcastD size c inputs rootRank rootTensor).1.isOk = false →
      (broadcastD size c inputs rootRank rootTensor).2 = c) ∧
    ((allreduceCoalescedD c tensors).1.isOk = false →
      (allreduceCoalescedD c tensors).2 = c) ∧
    ((reduceD size c inputs rootRank rootTensor).1.isOk = false →
      (reduceD size c inputs rootRank rootTensor).2 = c) ∧
    ((allgatherD size c outputsL inputs).1.isOk = false →
      (allgatherD size c outputsL inputs).2 = c) ∧
    ((gatherD size rank c outputsL inputs rootRank).1.isOk = false →
      (gatherD size rank c outputsL inputs rootRank).2 = c) ∧
    ((scatterD size rank c outputs1 inputsL rootRank).1.isOk = false →
      (scatterD size rank c outputs1 inputsL rootRank).2 = c) ∧
    ((allreduceD c inputs op).1.isOk = false →
      ((allreduceD c inputs op).2 = c ∨
        ((inputs.getD 0 defaultTensor).layout ≠ Layout.strided ∧
          (inputs.getD 0 defaultTensor).layout ≠ Layout.sparse))) := by
  refine ⟨?_, ?_, ?_, ?_, ?_, ?_, ?_⟩
  · intro h
    unfold broadcastD at h ⊢
    split_ifs at h ⊢ with h1 h2 h3 h4 h5
    any_goals rfl
    cases hdev : (inputs.getD 0 defaultTensor).device with
    | cpu => rw [hdev] at h; simp [Except.isOk, Except.toBool] at h
    | cuda => rw [hdev] at h; simp [Except.isOk, Except.toBool] at h
    | other => rw [hdev] at h5; simp [deviceSupported] at h5
  · intro h
    unfold allreduceCoalescedD at h ⊢
    split_ifs at h ⊢ with h1 h2 h3 h4 h5 h6
    any_goals rfl
    cases hdev : (tensors.getD 0 defaultTensor).device with
    | cpu =>
      cases hlay : (tensors.getD 0 defaultTensor).layout with
      | strided => rw [hdev, hlay] at h; simp [Except.isOk, Except.toBool] at h
      | sparse => rw [hlay] at h6; simp at h6
      | mkldnn => rw [hlay] at h6; simp at h6
    | cuda => rw [hdev] at h5; simp at h5
    | other => rw [hdev] at h5; simp at h5
  · intro h
    unfold reduceD at h ⊢
    split_ifs at h ⊢ with h1 h2 h3 h4 h5
    any_goals rfl
    cases hdev : (inputs.getD 0 defaultTensor).device with
    | cpu => rw [hdev] at h; simp [Except.isOk, Except.toBool] at h
    | cuda => rw [hdev] at h; simp [Except.isOk, Except.toBool] at h
    | other => rw [hdev] at h5; simp [deviceSupported] at h5
  · intro h
    unfold allgatherD at h ⊢
    split_ifs at h ⊢ with h1 h2 h3 h4 h5 h6 h7
    any_goals rfl
    cases hdev : (inputs.getD 0 defaultTensor).device with
    | cpu => rw [hdev] at h; simp [Except.isOk, Except.toBool] at h
    | cuda => rw [hdev] at h; simp [Except.isOk, Except.toBool] at h
    | other => rw [hdev] at h7; simp [deviceSupported] at h7
  · intro h
    unfold gatherD at h ⊢
    split_ifs at h ⊢ with h1 h2 h3 h4 h5 h6 h7
    any_goals rfl
    cases hdev : (inputs.getD 0 defaultTensor).device with
    | cpu => rw [hdev] at h; simp [Except.isOk, Except.toBool] at h
    | cuda => rw [hdev] at h; simp [Except.isOk, Except.toBool] at h
    | other => rw [hdev] at h7; simp [deviceSupported] at h7
  · intro h
    unfold scatterD at h ⊢
    split_ifs at h ⊢ with h1 h2 h3 h4 h5 h6 h7
    any_goals rfl
    cases hdev : (outputs1.getD 0 defaultTensor).device with
    | cpu => rw [hdev] at h; simp [Except.isOk, Except.toBool] at h
    | cuda => rw [hdev] at h; simp [Except.isOk, Except.toBool] at h
    | other => rw [hdev] at h7; simp [deviceSupported] at h7
  · intro h
    unfold allreduceD at h ⊢
    split_ifs at h ⊢ with h1 h2 h3 h4 h5
    any_goals (left; rfl)
    cases hdev : (inputs.getD 0 defaultTensor).device with
    | cpu =>
      cases hlay : (inputs.getD 0 defaultTensor).layout with
      | strided => rw [hdev, hlay] at h; simp [Except.isOk, Except.toBool] at h
      | sparse => rw [hdev, hlay] at h; simp [Except.isOk, Except.toBool] at h
      | mkldnn =>
        right
        exact ⟨by decide, by decide⟩
    | cuda =>
      cases hlay : (inputs.getD 0 defaultTensor).layout with
      | strided => rw [hdev, hlay] at h; simp [Except.isOk, Except.toBool] at h
      | sparse => rw [hdev, hlay] at h; simp [Except.isOk, Except.toBool] at h
      | mkldnn =>
        right
        exact ⟨by decide, by decide⟩
    | other => rw [hdev] at h4; simp [deviceSupported] at h4

/-- C5 witness: a broadcast with an out-of-range root rank fails with the
counter untouched. -/
theorem dispatch_validation_preserves_counter_witness :
    ((broadcastD 4 7 [defaultTensor] 9 0).1.isOk = false) ∧
    (broadcastD 4 7 [defaultTensor] 9 0).2 = 7 :=
  ⟨by decide,
    (dispatch_validation_preserves_counter 4 0 7 [defaultTensor] [] [] [] [] 9 0
      ReduceOp.sum).1 (by decide)⟩

/-! ### Worker pool drain proofs -/

theorem filterMap_id_replicate_none (T : Nat) :
    (List.replicate T (none : Option Nat)).filterMap id = [] := by
  induction T with
  | zero => rfl
  | succ n ih => simp [List.replicate, List.filterMap_cons, ih]

theorem filterMap_set_some (l : List (Option Nat)) (i w : Nat)
    (hnone : l.getD i none = none) (hi : i < l.length) :
    ((l.set i (some w)).filterMap id).Perm (w :: l.filterMap id) := by
  induction l generalizing i with
  | nil => simp at hi
  | cons a l ih =>
    cases i with
    | zero =>
      have ha : a = none := by simpa [List.getD] using hnone
      subst ha
      simp [List.filterMap_cons]
    | succ n =>
      have hn : n < l.length := Nat.lt_of_succ_lt_succ hi
      have hnone' : l.getD n none = none := by simpa [List.getD] using hnone
      rw [List.set_cons_succ]
      cases a with
      | none =>
        simp only [List.filterMap_cons, id]
        exact ih n hnone' hn
      | some y =>
        simp only [List.filterMap_cons, id]
        exact ((ih n hnone' hn).cons y).trans (List.Perm.swap _ _ _)

theorem filterMap_set_none (l : List (Option Nat)) (i w : Nat)
    (hsome : l.getD i none = some w) :
    (l.filterMap id).Perm (w :: (l.set i none).filterMap id) := by
  induction l generalizing i with
  | nil => simp [List.getD] at hsome
  | cons a l ih =>
    cases i with
    | zero =>
      have ha : a = some w := by simpa [List.getD] using hsome
      subst ha
      simp [List.filterMap_cons]
    | succ n =>
      have hsome' : l.getD n none = some w := by simpa [List.getD] using hsome
      rw [List.set_cons_succ]
      cases a with
      | none =>
        simp only [List.filterMap_cons, id]
        exact ih n hsome'
      | some y =>
        simp only [List.filterMap_cons, id]
        exact ((ih n hsome').cons y).trans (List.Perm.swap _ _ _)

/-- Conservation: every step preserves "enqueued = executed + in progress +
queued" as a multiset. -/
theorem poolStep_preserves (s s' : PoolState) (hstep : PoolStep s s')
    (hinv : s.enqueuedLog.Perm (s.executedLog ++ slotWork s ++ s.workQueue)) :
    s'.enqueuedLog.Perm (s'.executedLog ++ slotWork s' ++ s'.workQueue) := by
  cases hstep with
  | enqueue w h =>
    simp only [slotWork] at hinv ⊢
    simp only [List.append_assoc] at hinv ⊢
    refine (hinv.append_right [w]).trans ?_
    simp [List.append_assoc]
  | pop i w rest hq hi hslot hstop =>
    have h1 := filterMap_set_some s.workInProgress i w hslot hi
    rw [hq] at hinv
    simp only [slotWork] at hinv ⊢
    simp only [List.append_assoc] at hinv ⊢
    refine hinv.trans ?_
    apply List.Perm.append_left
    exact List.perm_middle.trans ((h1.append_right rest).symm)
  | execute i w hslot =>
    have h1 := filterMap_set_none s.workInProgress i w hslot
    simp only [slotWork] at hinv ⊢
    simp only [List.append_assoc] at hinv ⊢
    refine hinv.trans ?_
    apply List.Perm.append_left
    exact h1.append_right s.workQueue
  | setStop hq hstop => exact hinv

theorem pool_invariant (T : Nat) (s : PoolState) (h : PoolReachable T s) :
    s.enqueuedLog.Perm (s.executedLog ++ slotWork s ++ s.workQueue) := by
  induction h with
  | refl => simp [poolInit, slotWork, filterMap_id_replicate_none]
  | tail hsteps hstep ih => exact poolStep_preserves _ _ hstep ih

/-- C8: the destructor's stop flag can only be set from a state whose work
queue is empty (it waits on workConsumeCV_ first), and in any reachable
state where the queue has drained and every worker slot is clear — the state
in which the destructor joins the threads — every work item ever enqueued
has been executed. -/
theorem destructor_drains_queue (T : Nat) :
    (∀ s s', PoolStep s s' → s.stopFlag = false → s'.stopFlag = true →
      s.workQueue = []) ∧
    (∀ s, PoolReachable T s → s.stopFlag = true → s.workQueue = [] →
      slotWork s = [] → s.enqueuedLog.Perm s.executedLog) := by
  constructor
  · intro s s' hstep hs hs'
    cases hstep <;> simp_all
  · intro s hreach hstop hq hslots
    have hinv := pool_invariant T s hreach
    rw [hq, hslots] at hinv
    simpa using hinv

/-- C8 witness: enqueue one item, pop it, execute it, then stop — the
enqueued log and the executed log agree. -/
theorem destructor_drains_queue_witness :
    PoolReachable 2 (PoolState.mk [] [none, none] [42] [42] true) ∧
    (PoolState.mk [] [none, none] [42] [42] true).stopFlag = true ∧
    (PoolState.mk [] [none, none] [42] [42] true).workQueue = [] ∧
    slotWork (PoolState.mk [] [none, none] [42] [42] true) = [] ∧
    (PoolState.mk [] [none, none] [42] [42] true).enqueuedLog.Perm
      (PoolState.mk [] [none, none] [42] [42] true).executedLog := by
  have h1 : PoolStep (poolInit 2) ⟨[42], [none, none], [], [42], false⟩ :=
    PoolStep.enqueue (poolInit 2) 42 rfl
  have h2 : PoolStep ⟨[42], [none, none], [], [42], false⟩
      ⟨[], [some 42, none], [], [42], false⟩ :=
    PoolStep.pop _ 0 42 [] rfl (by decide) rfl rfl
  have h3 : PoolStep ⟨[], [some 42, none], [], [42], false⟩
      ⟨[], [none, none], [42], [42], false⟩ :=
    PoolStep.execute _ 0 42 rfl
  have h4 : PoolStep ⟨[], [none, none], [42], [42], false⟩
      ⟨[], [none, none], [42], [42], true⟩ :=
    PoolStep.setStop _ rfl rfl
  have hreach : PoolReachable 2 ⟨[], [none, none], [42], [42], true⟩ :=
    Relation.ReflTransGen.tail
      (Relation.ReflTransGen.tail
        (Relation.ReflTransGen.tail
          (Relation.ReflTransGen.tail Relation.ReflTransGen.refl h1) h2) h3) h4
  exact ⟨hreach, rfl, rfl, rfl,
    (destructor_drains_queue 2).2 _ hreach rfl rfl rfl⟩

end c10d
